import Mathlib

/-!
CapLang: a verified shallow embedding

This file embeds the CapLang pipeline (lexer, recursive-descent parser,
tree-walking interpreter, and Python-lowering compiler backend) from the
repository sources `src/lexer.py`, `src/parser.py`, `src/interpreter.py`,
`src/compiler.py`, and proves properties of the embedding.

Modelling conventions:
* Python floats are modelled as exact rationals (the `PyFloat` fraction
  type below, kept unnormalised so that all operations compute by kernel
  reduction).  Every numeric value
  appearing in the concrete programs verified below is an integer-valued
  float, for which the model is exact (Python guarantees
  `str(14.0) = "14.0"` etc.).
* Python exceptions are modelled as `Except`/outcome values; mutation of the
  interpreter's environment objects is modelled with an explicit heap of
  environment records addressed by `Nat` ids (Python environments are
  mutable heap objects shared by closures).
* Unbounded recursion in the interpreter and parser is modelled with a fuel
  parameter; exhausting fuel yields a distinguished "divergence" outcome
  that is never caught by any modelled exception handler.
-/

set_option maxHeartbeats 4000000

namespace CapLang

instance {ε α : Type} [DecidableEq ε] [DecidableEq α] : DecidableEq (Except ε α) :=
  fun a b =>
    match a, b with
    | .ok x, .ok y =>
      if h : x = y then .isTrue (by rw [h]) else .isFalse (fun c => by cases c; exact h rfl)
    | .error x, .error y =>
      if h : x = y then .isTrue (by rw [h]) else .isFalse (fun c => by cases c; exact h rfl)
    | .ok _, .error _ => .isFalse (fun c => by cases c)
    | .error _, .ok _ => .isFalse (fun c => by cases c)

/-- Exact model of a Python float: a fraction with positive denominator.
All float values arising in the verified programs are exactly-representable
rationals, for which Python float arithmetic is exact.  Fractions are not
normalised (no gcd), so every operation reduces definitionally. -/
structure PyFloat where
  num : Int
  den : Int
  deriving DecidableEq, Repr

namespace PyFloat

def ofInt (n : Int) : PyFloat := ⟨n, 1⟩

def add (a b : PyFloat) : PyFloat := ⟨a.num * b.den + b.num * a.den, a.den * b.den⟩

def sub (a b : PyFloat) : PyFloat := ⟨a.num * b.den - b.num * a.den, a.den * b.den⟩

def mul (a b : PyFloat) : PyFloat := ⟨a.num * b.num, a.den * b.den⟩

/-- True division; the sign is kept in the numerator (denominators stay
positive).  Division by zero is guarded by the callers. -/
def div (a b : PyFloat) : PyFloat :=
  let n := a.num * b.den
  let d := a.den * b.num
  if d < 0 then ⟨-n, -d⟩ else ⟨n, d⟩

def neg (a : PyFloat) : PyFloat := ⟨-a.num, a.den⟩

def isZero (a : PyFloat) : Bool := a.num = 0

/-- Numeric equality of fractions (denominators positive). -/
def beq (a b : PyFloat) : Bool := a.num * b.den = b.num * a.den

def blt (a b : PyFloat) : Bool := a.num * b.den < b.num * a.den

def ble (a b : PyFloat) : Bool := a.num * b.den ≤ b.num * a.den

/-- Truncation toward zero (`int()` applied to a float). -/
def trunc (a : PyFloat) : Int := Int.tdiv a.num a.den

/-- Whether the fraction is an integer (denominators positive). -/
def isInt (a : PyFloat) : Bool := Int.emod a.num a.den = 0

end PyFloat

/-- Literal values produced by the lexer/parser (`Literal(value)` nodes hold
a Python float, string, bool or `None`). -/
inductive LitVal where
  | num (q : PyFloat)
  | str (s : String)
  | bool (b : Bool)
  | nil
  deriving DecidableEq, Repr

/-- Token kinds, from the `TokenType` enum in `src/lexer.py`. -/
inductive TokenType where
  | DEF | CLASS | IF | ELSE | TRUE | FALSE | NIL | RETURN
  | PRINT | VAR | FOR | WHILE | BREAK | CONTINUE | IMPORT
  | IDENTIFIER | STRING | NUMBER
  | PLUS | MINUS | STAR | SLASH
  | EQUAL | EQUAL_EQUAL | BANG | BANG_EQUAL
  | GREATER | GREATER_EQUAL | LESS | LESS_EQUAL
  | LEFT_PAREN | RIGHT_PAREN | LEFT_BRACE | RIGHT_BRACE
  | COMMA | DOT | SEMICOLON
  | EOF
  deriving DecidableEq, Repr

/-- A token: kind, raw lexeme, optional literal payload, source line
(`Token` in `src/lexer.py`). -/
structure Token where
  type : TokenType
  lexeme : String
  literal : Option LitVal
  line : Nat
  deriving DecidableEq, Repr

/-! ## Character classes

The lexer uses Python's `str.isspace`, `str.isalpha`, `str.isdigit`,
`str.isalnum`; we model their behaviour on the ASCII range (CapLang sources
in this development are ASCII). -/

def pyIsSpace (c : Char) : Bool :=
  c = ' ' || c = '\t' || c = '\n' || c = '\r' || c = '\x0b' || c = '\x0c'

def pyIsAlpha (c : Char) : Bool :=
  ('a' ≤ c && c ≤ 'z') || ('A' ≤ c && c ≤ 'Z')

def pyIsDigit (c : Char) : Bool :=
  '0' ≤ c && c ≤ '9'

def pyIsAlnum (c : Char) : Bool :=
  pyIsAlpha c || pyIsDigit c

def digitVal (c : Char) : Nat := c.toNat - '0'.toNat

def charsToNat (cs : List Char) : Nat :=
  cs.foldl (fun a c => a * 10 + digitVal c) 0
/-- Keyword table of `Lexer.__init__` (`self.keywords`). -/
def keywordType (s : String) : Option TokenType :=
  if s = "def" then some .DEF
  else if s = "class" then some .CLASS
  else if s = "if" then some .IF
  else if s = "else" then some .ELSE
  else if s = "true" then some .TRUE
  else if s = "false" then some .FALSE
  else if s = "nil" then some .NIL
  else if s = "return" then some .RETURN
  else if s = "print" then some .PRINT
  else if s = "var" then some .VAR
  else if s = "for" then some .FOR
  else if s = "while" then some .WHILE
  else if s = "break" then some .BREAK
  else if s = "continue" then some .CONTINUE
  else if s = "import" then some .IMPORT
  else none

/-- `Lexer.string`: scan the remaining source after the opening quote until
the closing quote, returning (contents, rest-of-source, updated line).
Newlines inside the string only increment the line counter; reaching the end
of input raises `Unterminated string at line n`. -/
def lexStringBody : List Char → Nat → Except String (List Char × List Char × Nat)
  | [], line => .error ("Unterminated string at line " ++ toString line)
  | c :: rest, line =>
    if c = '"' then .ok ([], rest, line)
    else
      match lexStringBody rest (if c = '\n' then line + 1 else line) with
      | .ok (content, rem, l) => .ok (c :: content, rem, l)
      | .error e => .error e

/-- `Lexer.number`: `c` is the first (digit) character already consumed.
Scans further digits, then an optional fractional part `.'digit'+`
(a dot is consumed only when followed by a digit, cf. `peek_next`). -/
def lexNumber (c : Char) (rest : List Char) : (List Char × PyFloat × List Char) :=
  let intDigits := rest.takeWhile pyIsDigit
  let rest1 := rest.dropWhile pyIsDigit
  match rest1 with
  | '.' :: d :: tl =>
    if pyIsDigit d then
      let fracDigits := (d :: tl).takeWhile pyIsDigit
      let rest2 := (d :: tl).dropWhile pyIsDigit
      let lexeme := c :: intDigits ++ '.' :: fracDigits
      let value : PyFloat :=
        ⟨(charsToNat (c :: intDigits) : Int) * (10 : Int) ^ fracDigits.length +
            (charsToNat fracDigits : Int),
          (10 : Int) ^ fracDigits.length⟩
      (lexeme, value, rest2)
    else (c :: intDigits, .ofInt (charsToNat (c :: intDigits)), rest1)
  | _ => (c :: intDigits, .ofInt (charsToNat (c :: intDigits)), rest1)

/-- `Lexer.identifier`: scan the remaining identifier characters; the
keyword table reclassifies the lexeme. -/
def lexIdent (c : Char) (rest : List Char) : (String × TokenType × List Char) :=
  let tl := rest.takeWhile (fun ch => pyIsAlnum ch || ch = '_')
  let rest1 := rest.dropWhile (fun ch => pyIsAlnum ch || ch = '_')
  let text := String.mk (c :: tl)
  (text, (keywordType text).getD .IDENTIFIER, rest1)

/-- One- or two-character operator / delimiter dispatch of
`Lexer.scan_token` (the longest-match lookahead for `==`, `!=`, `<=`, `>=`
is the `match('=')` call). Returns `none` for an unsupported character. -/
def lexOperator (c : Char) (rest : List Char) :
    Option (TokenType × String × List Char) :=
  if c = '(' then some (.LEFT_PAREN, "(", rest)
  else if c = ')' then some (.RIGHT_PAREN, ")", rest)
  else if c = '{' then some (.LEFT_BRACE, "\x7b", rest)
  else if c = '}' then some (.RIGHT_BRACE, "\x7d", rest)
  else if c = ',' then some (.COMMA, ",", rest)
  else if c = '.' then some (.DOT, ".", rest)
  else if c = ';' then some (.SEMICOLON, ";", rest)
  else if c = '+' then some (.PLUS, "+", rest)
  else if c = '-' then some (.MINUS, "-", rest)
  else if c = '*' then some (.STAR, "*", rest)
  else if c = '/' then some (.SLASH, "/", rest)
  else if c = '=' then
    match rest with
    | '=' :: tl => some (.EQUAL_EQUAL, "==", tl)
    | _ => some (.EQUAL, "=", rest)
  else if c = '!' then
    match rest with
    | '=' :: tl => some (.BANG_EQUAL, "!=", tl)
    | _ => some (.BANG, "!", rest)
  else if c = '<' then
    match rest with
    | '=' :: tl => some (.LESS_EQUAL, "<=", tl)
    | _ => some (.LESS, "<", rest)
  else if c = '>' then
    match rest with
    | '=' :: tl => some (.GREATER_EQUAL, ">=", tl)
    | _ => some (.GREATER, ">", rest)
  else none

/-- Main scanning loop of `Lexer.scan_tokens` / `Lexer.scan_token`.
Each iteration consumes at least one character, so `fuel > length src`
always suffices; the `fuel = 0` branch is unreachable in the wrapper. -/
def scanLoop : Nat → List Char → Nat → Except String (List Token)
  | 0, _, _ => .error "lexer fuel exhausted"
  | fuel + 1, src, line =>
    match src with
    | [] => .ok [⟨.EOF, "", none, line⟩]
    | c :: rest =>
      if pyIsSpace c then
        scanLoop fuel rest (if c = '\n' then line + 1 else line)
      else if pyIsAlpha c || c = '_' then
        let (text, ty, rest1) := lexIdent c rest
        match scanLoop fuel rest1 line with
        | .ok toks => .ok (⟨ty, text, none, line⟩ :: toks)
        | .error e => .error e
      else if pyIsDigit c then
        let (lexeme, value, rest1) := lexNumber c rest
        match scanLoop fuel rest1 line with
        | .ok toks => .ok (⟨.NUMBER, String.mk lexeme, some (.num value), line⟩ :: toks)
        | .error e => .error e
      else if c = '"' then
        match lexStringBody rest line with
        | .ok (content, rest1, line1) =>
          let lexeme := String.mk ('"' :: content ++ ['"'])
          match scanLoop fuel rest1 line1 with
          | .ok toks =>
            .ok (⟨.STRING, lexeme, some (.str (String.mk content)), line1⟩ :: toks)
          | .error e => .error e
        | .error e => .error e
      else
        match lexOperator c rest with
        | some (ty, lexeme, rest1) =>
          match scanLoop fuel rest1 line with
          | .ok toks => .ok (⟨ty, lexeme, none, line⟩ :: toks)
          | .error e => .error e
        | none => .error ("Unexpected character at line " ++ toString line)

/-- `Lexer(source).scan_tokens()`. -/
def scanTokens (src : String) : Except String (List Token) :=
  scanLoop (src.length + 1) src.toList 1

/-! ## Abstract syntax tree (`src/parser.py`)

Expression and statement nodes.  Name tokens are represented by their
lexemes (the interpreter and compiler only ever read `.lexeme` of name
tokens); operator tokens are represented by their `TokenType` (the
interpreter and compiler only read `.type` of operator tokens). -/

inductive Expr where
  | binary (left : Expr) (op : TokenType) (right : Expr)
  | grouping (e : Expr)
  | literal (v : LitVal)
  | unary (op : TokenType) (right : Expr)
  | varRef (name : String)
  | assign (name : String) (value : Expr)
  | get (obj : Expr) (name : String)
  | call (callee : Expr) (args : List Expr)
  deriving Repr

inductive Stmt where
  | expression (e : Expr)
  | print (e : Expr)
  | varDecl (name : String) (vtype : Option String) (init : Option Expr)
  | importDecl (path : List String)
  | block (stmts : List Stmt)
  | ifS (cond : Expr) (thenB : Stmt) (elseB : Option Stmt)
  | whileS (cond : Expr) (body : Stmt)
  | funcDecl (name : String) (params : List String) (body : List Stmt)
  | ret (value : Option Expr)
  deriving Repr

/-! ## Parser (`src/parser.py`)

A recursive-descent parser over the token list.  The parser state is the
current index `i` into the fixed token list `toks`; each parsing function
returns the parsed node together with the new index, or the `ParseError`
message.  The mutual recursion is fuel-bounded; the Python original
terminates because every recursive cycle consumes a token, so a generous
fuel in the `parse` wrapper makes the `fuel = 0` branch unreachable. -/

/-- `Parser.peek` (token indexing; the stream always ends in EOF). -/
def peekTok (toks : List Token) (i : Nat) : Token :=
  toks.getD i ⟨.EOF, "", none, 0⟩

/-- `Parser.check`. -/
def checkTok (toks : List Token) (i : Nat) (ty : TokenType) : Bool :=
  if (peekTok toks i).type = .EOF then false
  else (peekTok toks i).type = ty

/-- `Parser.match` on a single type: advance on success. -/
def matchTok (toks : List Token) (i : Nat) (ty : TokenType) : Option Nat :=
  if checkTok toks i ty then some (i + 1) else none

/-- `Parser.consume`: return the consumed token, or a `ParseError`. -/
def consumeTok (toks : List Token) (i : Nat) (ty : TokenType) (msg : String) :
    Except String (Token × Nat) :=
  if checkTok toks i ty then .ok (peekTok toks i, i + 1)
  else .error (msg ++ " at line " ++ toString (peekTok toks i).line)

mutual

/-- `Parser.declaration`. -/
def pDeclaration : Nat → List Token → Nat → Except String (Stmt × Nat)
  | 0, _, _ => .error "parser fuel exhausted"
  | fuel + 1, toks, i =>
    match matchTok toks i .VAR with
    | some i1 => pVarDeclaration fuel toks i1
    | none =>
    match matchTok toks i .DEF with
    | some i1 => pFunctionDeclaration fuel toks i1
    | none =>
    match matchTok toks i .IMPORT with
    | some i1 => pImportDeclaration fuel toks i1
    | none => pStatement fuel toks i

  termination_by structural fuel _ _ => fuel
/-- `Parser.var_declaration` (after the `var` keyword).  The lookahead
heuristic: if two identifiers follow, the first is the declared type. -/
def pVarDeclaration : Nat → List Token → Nat → Except String (Stmt × Nat)
  | 0, _, _ => .error "parser fuel exhausted"
  | fuel + 1, toks, i =>
    let parsedName : Except String (Option String × String × Nat) :=
      match matchTok toks i .IDENTIFIER with
      | some i1 =>
        let first := peekTok toks i
        if checkTok toks i1 .IDENTIFIER then
          match consumeTok toks i1 .IDENTIFIER "Expect variable name." with
          | .ok (nameTok, i2) => .ok (some first.lexeme, nameTok.lexeme, i2)
          | .error e => .error e
        else .ok (none, first.lexeme, i1)
      | none =>
        match consumeTok toks i .IDENTIFIER "Expect variable name." with
        | .ok (nameTok, i1) => .ok (none, nameTok.lexeme, i1)
        | .error e => .error e
    match parsedName with
    | .error e => .error e
    | .ok (vtype, name, i2) =>
      match matchTok toks i2 .EQUAL with
      | some i3 =>
        match pExpression fuel toks i3 with
        | .ok (init, i4) =>
          let i5 := (matchTok toks i4 .SEMICOLON).getD i4
          .ok (.varDecl name vtype (some init), i5)
        | .error e => .error e
      | none =>
        let i3 := (matchTok toks i2 .SEMICOLON).getD i2
        .ok (.varDecl name vtype none, i3)

/-- `Parser.import_declaration` (after the `import` keyword). -/
def pImportDeclaration : Nat → List Token → Nat → Except String (Stmt × Nat)
  | 0, _, _ => .error "parser fuel exhausted"
  | fuel + 1, toks, i =>
    match consumeTok toks i .IDENTIFIER "Expect module name in import." with
    | .ok (first, i1) =>
      match pImportPath fuel toks i1 [first.lexeme] with
      | .ok (parts, i2) =>
        let i3 := (matchTok toks i2 .SEMICOLON).getD i2
        .ok (.importDecl parts, i3)
      | .error e => .error e
    | .error e => .error e

/-- The `while self.match(TokenType.DOT)` loop of `import_declaration`. -/
def pImportPath : Nat → List Token → Nat → List String →
    Except String (List String × Nat)
  | 0, _, _, _ => .error "parser fuel exhausted"
  | fuel + 1, toks, i, acc =>
    match matchTok toks i .DOT with
    | some i1 =>
      match consumeTok toks i1 .IDENTIFIER "Expect name after '.' in import." with
      | .ok (tok, i2) => pImportPath fuel toks i2 (acc ++ [tok.lexeme])
      | .error e => .error e
    | none => .ok (acc, i)

  termination_by structural fuel _ _ _ => fuel
/-- `Parser.function_declaration` (after the `def` keyword). -/
def pFunctionDeclaration : Nat → List Token → Nat → Except String (Stmt × Nat)
  | 0, _, _ => .error "parser fuel exhausted"
  | fuel + 1, toks, i =>
    match consumeTok toks i .IDENTIFIER "Expect function name." with
    | .error e => .error e
    | .ok (nameTok, i1) =>
    match consumeTok toks i1 .LEFT_PAREN "Expect '(' after function name." with
    | .error e => .error e
    | .ok (_, i2) =>
    let parsedParams : Except String (List String × Nat) :=
      if checkTok toks i2 .RIGHT_PAREN then .ok ([], i2)
      else
        match consumeTok toks i2 .IDENTIFIER "Expect parameter name." with
        | .ok (p, i3) => pParamsLoop fuel toks i3 [p.lexeme]
        | .error e => .error e
    match parsedParams with
    | .error e => .error e
    | .ok (params, i4) =>
    match consumeTok toks i4 .RIGHT_PAREN "Expect ')' after parameters." with
    | .error e => .error e
    | .ok (_, i5) =>
    match consumeTok toks i5 .LEFT_BRACE "Expect '\x7b' before function body." with
    | .error e => .error e
    | .ok (_, i6) =>
    match pStmtsUntilBrace fuel toks i6 [] with
    | .error e => .error e
    | .ok (body, i7) =>
    match consumeTok toks i7 .RIGHT_BRACE "Expect '\x7d' after function body." with
    | .error e => .error e
    | .ok (_, i8) => .ok (.funcDecl nameTok.lexeme params body, i8)

  termination_by structural fuel _ _ => fuel
/-- The `while self.match(TokenType.COMMA)` parameter loop. -/
def pParamsLoop : Nat → List Token → Nat → List String →
    Except String (List String × Nat)
  | 0, _, _, _ => .error "parser fuel exhausted"
  | fuel + 1, toks, i, acc =>
    match matchTok toks i .COMMA with
    | some i1 =>
      match consumeTok toks i1 .IDENTIFIER "Expect parameter name." with
      | .ok (p, i2) => pParamsLoop fuel toks i2 (acc ++ [p.lexeme])
      | .error e => .error e
    | none => .ok (acc, i)

  termination_by structural fuel _ _ _ => fuel
/-- Statement accumulation until `}` or end of input (`Parser.block` body
and the function-body loop share this shape). -/
def pStmtsUntilBrace : Nat → List Token → Nat → List Stmt →
    Except String (List Stmt × Nat)
  | 0, _, _, _ => .error "parser fuel exhausted"
  | fuel + 1, toks, i, acc =>
    if checkTok toks i .RIGHT_BRACE then .ok (acc, i)
    else if (peekTok toks i).type = .EOF then .ok (acc, i)
    else
      match pDeclaration fuel toks i with
      | .ok (s, i1) => pStmtsUntilBrace fuel toks i1 (acc ++ [s])
      | .error e => .error e

  termination_by structural fuel _ _ _ => fuel
/-- `Parser.statement`. -/
def pStatement : Nat → List Token → Nat → Except String (Stmt × Nat)
  | 0, _, _ => .error "parser fuel exhausted"
  | fuel + 1, toks, i =>
    match matchTok toks i .PRINT with
    | some i1 =>
      match pExpression fuel toks i1 with
      | .ok (e, i2) => .ok (.print e, (matchTok toks i2 .SEMICOLON).getD i2)
      | .error e => .error e
    | none =>
    match matchTok toks i .RETURN with
    | some i1 => pReturnStatement fuel toks i1
    | none =>
    match matchTok toks i .FOR with
    | some i1 => pForStatement fuel toks i1
    | none =>
    match matchTok toks i .IF with
    | some i1 => pIfStatement fuel toks i1
    | none =>
    match matchTok toks i .WHILE with
    | some i1 => pWhileStatement fuel toks i1
    | none =>
    match matchTok toks i .LEFT_BRACE with
    | some i1 =>
      match pStmtsUntilBrace fuel toks i1 [] with
      | .ok (stmts, i2) =>
        match consumeTok toks i2 .RIGHT_BRACE "Expect '\x7d' after block." with
        | .ok (_, i3) => .ok (.block stmts, i3)
        | .error e => .error e
      | .error e => .error e
    | none => pExpressionStatement fuel toks i

  termination_by structural fuel _ _ => fuel
/-- `Parser.return_statement` (after the `return` keyword). -/
def pReturnStatement : Nat → List Token → Nat → Except String (Stmt × Nat)
  | 0, _, _ => .error "parser fuel exhausted"
  | fuel + 1, toks, i =>
    if !(checkTok toks i .SEMICOLON) && !(checkTok toks i .RIGHT_BRACE) then
      match pExpression fuel toks i with
      | .ok (e, i1) => .ok (.ret (some e), (matchTok toks i1 .SEMICOLON).getD i1)
      | .error e => .error e
    else
      .ok (.ret none, (matchTok toks i .SEMICOLON).getD i)

/-- `Parser.if_statement` (after the `if` keyword). -/
def pIfStatement : Nat → List Token → Nat → Except String (Stmt × Nat)
  | 0, _, _ => .error "parser fuel exhausted"
  | fuel + 1, toks, i =>
    match consumeTok toks i .LEFT_PAREN "Expect '(' after 'if'." with
    | .error e => .error e
    | .ok (_, i1) =>
    match pExpression fuel toks i1 with
    | .error e => .error e
    | .ok (cond, i2) =>
    match consumeTok toks i2 .RIGHT_PAREN "Expect ')' after if condition." with
    | .error e => .error e
    | .ok (_, i3) =>
    match pStatement fuel toks i3 with
    | .error e => .error e
    | .ok (thenB, i4) =>
    match matchTok toks i4 .ELSE with
    | some i5 =>
      match pStatement fuel toks i5 with
      | .ok (elseB, i6) => .ok (.ifS cond thenB (some elseB), i6)
      | .error e => .error e
    | none => .ok (.ifS cond thenB none, i4)

  termination_by structural fuel _ _ => fuel
/-- `Parser.while_statement` (after the `while` keyword). -/
def pWhileStatement : Nat → List Token → Nat → Except String (Stmt × Nat)
  | 0, _, _ => .error "parser fuel exhausted"
  | fuel + 1, toks, i =>
    match consumeTok toks i .LEFT_PAREN "Expect '(' after 'while'." with
    | .error e => .error e
    | .ok (_, i1) =>
    match pExpression fuel toks i1 with
    | .error e => .error e
    | .ok (cond, i2) =>
    match consumeTok toks i2 .RIGHT_PAREN "Expect ')' after condition." with
    | .error e => .error e
    | .ok (_, i3) =>
    match pStatement fuel toks i3 with
    | .error e => .error e
    | .ok (body, i4) => .ok (.whileS cond body, i4)

  termination_by structural fuel _ _ => fuel
/-- `Parser.for_statement` (after the `for` keyword): desugars at parse time
into `{ initializer; while (condition) { body; increment } }`. -/
def pForStatement : Nat → List Token → Nat → Except String (Stmt × Nat)
  | 0, _, _ => .error "parser fuel exhausted"
  | fuel + 1, toks, i =>
    match consumeTok toks i .LEFT_PAREN "Expect '(' after 'for'." with
    | .error e => .error e
    | .ok (_, i1) =>
    let parsedInit : Except String (Option Stmt × Nat) :=
      match matchTok toks i1 .SEMICOLON with
      | some i2 => .ok (none, i2)
      | none =>
        match matchTok toks i1 .VAR with
        | some i2 =>
          match pVarDeclaration fuel toks i2 with
          | .ok (s, i3) => .ok (some s, i3)
          | .error e => .error e
        | none =>
          match pExpressionStatement fuel toks i1 with
          | .ok (s, i3) => .ok (some s, i3)
          | .error e => .error e
    match parsedInit with
    | .error e => .error e
    | .ok (initializer, i4) =>
    let parsedCond : Except String (Option Expr × Nat) :=
      if checkTok toks i4 .SEMICOLON then .ok (none, i4)
      else
        match pExpression fuel toks i4 with
        | .ok (c, i5) => .ok (some c, i5)
        | .error e => .error e
    match parsedCond with
    | .error e => .error e
    | .ok (condition, i5) =>
    match consumeTok toks i5 .SEMICOLON "Expect ';' after loop condition." with
    | .error e => .error e
    | .ok (_, i6) =>
    let parsedInc : Except String (Option Expr × Nat) :=
      if checkTok toks i6 .RIGHT_PAREN then .ok (none, i6)
      else
        match pExpression fuel toks i6 with
        | .ok (c, i7) => .ok (some c, i7)
        | .error e => .error e
    match parsedInc with
    | .error e => .error e
    | .ok (increment, i7) =>
    match consumeTok toks i7 .RIGHT_PAREN "Expect ')' after for clauses." with
    | .error e => .error e
    | .ok (_, i8) =>
    match pStatement fuel toks i8 with
    | .error e => .error e
    | .ok (body, i9) =>
      let body1 := match increment with
        | some inc => Stmt.block [body, .expression inc]
        | none => body
      let cond := condition.getD (.literal (.bool true))
      let loop := Stmt.whileS cond body1
      let result := match initializer with
        | some ini => Stmt.block [ini, loop]
        | none => loop
      .ok (result, i9)

  termination_by structural fuel _ _ => fuel
/-- `Parser.expression_statement`. -/
def pExpressionStatement : Nat → List Token → Nat → Except String (Stmt × Nat)
  | 0, _, _ => .error "parser fuel exhausted"
  | fuel + 1, toks, i =>
    match pExpression fuel toks i with
    | .ok (e, i1) => .ok (.expression e, (matchTok toks i1 .SEMICOLON).getD i1)
    | .error e => .error e

/-- `Parser.expression`. -/
def pExpression : Nat → List Token → Nat → Except String (Expr × Nat)
  | 0, _, _ => .error "parser fuel exhausted"
  | fuel + 1, toks, i => pAssignment fuel toks i

  termination_by structural fuel _ _ => fuel
/-- `Parser.assignment`: right-associative; the left side must have parsed
as a bare `Variable`, otherwise `Invalid assignment target`. -/
def pAssignment : Nat → List Token → Nat → Except String (Expr × Nat)
  | 0, _, _ => .error "parser fuel exhausted"
  | fuel + 1, toks, i =>
    match pEquality fuel toks i with
    | .error e => .error e
    | .ok (expr, i1) =>
    match matchTok toks i1 .EQUAL with
    | some i2 =>
      let equalsLine := (peekTok toks i1).line
      match pAssignment fuel toks i2 with
      | .error e => .error e
      | .ok (value, i3) =>
        match expr with
        | .varRef name => .ok (.assign name value, i3)
        | _ => .error ("Invalid assignment target at line " ++ toString equalsLine)
    | none => .ok (expr, i1)

  termination_by structural fuel _ _ => fuel
/-- `Parser.equality`. -/
def pEquality : Nat → List Token → Nat → Except String (Expr × Nat)
  | 0, _, _ => .error "parser fuel exhausted"
  | fuel + 1, toks, i =>
    match pComparison fuel toks i with
    | .ok (e, i1) => pEqualityLoop fuel toks i1 e
    | .error e => .error e

  termination_by structural fuel _ _ => fuel

def pEqualityLoop : Nat → List Token → Nat → Expr → Except String (Expr × Nat)
  | 0, _, _, _ => .error "parser fuel exhausted"
  | fuel + 1, toks, i, acc =>
    let op := (peekTok toks i).type
    if checkTok toks i .BANG_EQUAL || checkTok toks i .EQUAL_EQUAL then
      match pComparison fuel toks (i + 1) with
      | .ok (right, i1) => pEqualityLoop fuel toks i1 (.binary acc op right)
      | .error e => .error e
    else .ok (acc, i)

  termination_by structural fuel _ _ _ => fuel
/-- `Parser.comparison`. -/
def pComparison : Nat → List Token → Nat → Except String (Expr × Nat)
  | 0, _, _ => .error "parser fuel exhausted"
  | fuel + 1, toks, i =>
    match pTerm fuel toks i with
    | .ok (e, i1) => pComparisonLoop fuel toks i1 e
    | .error e => .error e

  termination_by structural fuel _ _ => fuel

def pComparisonLoop : Nat → List Token → Nat → Expr → Except String (Expr × Nat)
  | 0, _, _, _ => .error "parser fuel exhausted"
  | fuel + 1, toks, i, acc =>
    let op := (peekTok toks i).type
    if checkTok toks i .GREATER || checkTok toks i .GREATER_EQUAL ||
        checkTok toks i .LESS || checkTok toks i .LESS_EQUAL then
      match pTerm fuel toks (i + 1) with
      | .ok (right, i1) => pComparisonLoop fuel toks i1 (.binary acc op right)
      | .error e => .error e
    else .ok (acc, i)

  termination_by structural fuel _ _ _ => fuel
/-- `Parser.term` (`+`, `-`). -/
def pTerm : Nat → List Token → Nat → Except String (Expr × Nat)
  | 0, _, _ => .error "parser fuel exhausted"
  | fuel + 1, toks, i =>
    match pFactor fuel toks i with
    | .ok (e, i1) => pTermLoop fuel toks i1 e
    | .error e => .error e

  termination_by structural fuel _ _ => fuel

def pTermLoop : Nat → List Token → Nat → Expr → Except String (Expr × Nat)
  | 0, _, _, _ => .error "parser fuel exhausted"
  | fuel + 1, toks, i, acc =>
    let op := (peekTok toks i).type
    if checkTok toks i .MINUS || checkTok toks i .PLUS then
      match pFactor fuel toks (i + 1) with
      | .ok (right, i1) => pTermLoop fuel toks i1 (.binary acc op right)
      | .error e => .error e
    else .ok (acc, i)

  termination_by structural fuel _ _ _ => fuel
/-- `Parser.factor` (`*`, `/`). -/
def pFactor : Nat → List Token → Nat → Except String (Expr × Nat)
  | 0, _, _ => .error "parser fuel exhausted"
  | fuel + 1, toks, i =>
    match pUnary fuel toks i with
    | .ok (e, i1) => pFactorLoop fuel toks i1 e
    | .error e => .error e

  termination_by structural fuel _ _ => fuel

def pFactorLoop : Nat → List Token → Nat → Expr → Except String (Expr × Nat)
  | 0, _, _, _ => .error "parser fuel exhausted"
  | fuel + 1, toks, i, acc =>
    let op := (peekTok toks i).type
    if checkTok toks i .SLASH || checkTok toks i .STAR then
      match pUnary fuel toks (i + 1) with
      | .ok (right, i1) => pFactorLoop fuel toks i1 (.binary acc op right)
      | .error e => .error e
    else .ok (acc, i)

  termination_by structural fuel _ _ _ => fuel
/-- `Parser.unary` (`!`, `-`). -/
def pUnary : Nat → List Token → Nat → Except String (Expr × Nat)
  | 0, _, _ => .error "parser fuel exhausted"
  | fuel + 1, toks, i =>
    let op := (peekTok toks i).type
    if checkTok toks i .BANG || checkTok toks i .MINUS then
      match pUnary fuel toks (i + 1) with
      | .ok (right, i1) => .ok (.unary op right, i1)
      | .error e => .error e
    else pCallExpr fuel toks i

  termination_by structural fuel _ _ => fuel
/-- `Parser.call`: a primary followed by call / field-access suffixes. -/
def pCallExpr : Nat → List Token → Nat → Except String (Expr × Nat)
  | 0, _, _ => .error "parser fuel exhausted"
  | fuel + 1, toks, i =>
    match pPrimary fuel toks i with
    | .ok (e, i1) => pCallSuffix fuel toks i1 e
    | .error e => .error e

  termination_by structural fuel _ _ => fuel
/-- The `while True` suffix loop of `Parser.call`. -/
def pCallSuffix : Nat → List Token → Nat → Expr → Except String (Expr × Nat)
  | 0, _, _, _ => .error "parser fuel exhausted"
  | fuel + 1, toks, i, acc =>
    match matchTok toks i .LEFT_PAREN with
    | some i1 =>
      let parsedArgs : Except String (List Expr × Nat) :=
        if checkTok toks i1 .RIGHT_PAREN then .ok ([], i1)
        else
          match pExpression fuel toks i1 with
          | .ok (a, i2) => pArgsLoop fuel toks i2 [a]
          | .error e => .error e
      match parsedArgs with
      | .error e => .error e
      | .ok (args, i3) =>
        match consumeTok toks i3 .RIGHT_PAREN "Expect ')' after arguments." with
        | .ok (_, i4) => pCallSuffix fuel toks i4 (.call acc args)
        | .error e => .error e
    | none =>
      match matchTok toks i .DOT with
      | some i1 =>
        match consumeTok toks i1 .IDENTIFIER "Expect property name after '.'." with
        | .ok (nameTok, i2) => pCallSuffix fuel toks i2 (.get acc nameTok.lexeme)
        | .error e => .error e
      | none => .ok (acc, i)

  termination_by structural fuel _ _ _ => fuel
/-- The `while self.match(TokenType.COMMA)` argument loop. -/
def pArgsLoop : Nat → List Token → Nat → List Expr → Except String (List Expr × Nat)
  | 0, _, _, _ => .error "parser fuel exhausted"
  | fuel + 1, toks, i, acc =>
    match matchTok toks i .COMMA with
    | some i1 =>
      match pExpression fuel toks i1 with
      | .ok (a, i2) => pArgsLoop fuel toks i2 (acc ++ [a])
      | .error e => .error e
    | none => .ok (acc, i)

  termination_by structural fuel _ _ _ => fuel
/-- `Parser.primary`. -/
def pPrimary : Nat → List Token → Nat → Except String (Expr × Nat)
  | 0, _, _ => .error "parser fuel exhausted"
  | fuel + 1, toks, i =>
    match matchTok toks i .FALSE with
    | some i1 => .ok (.literal (.bool false), i1)
    | none =>
    match matchTok toks i .TRUE with
    | some i1 => .ok (.literal (.bool true), i1)
    | none =>
    match matchTok toks i .NIL with
    | some i1 => .ok (.literal .nil, i1)
    | none =>
    if checkTok toks i .NUMBER || checkTok toks i .STRING then
      .ok (.literal ((peekTok toks i).literal.getD .nil), i + 1)
    else
    match matchTok toks i .IDENTIFIER with
    | some i1 => .ok (.varRef (peekTok toks i).lexeme, i1)
    | none =>
    match matchTok toks i .LEFT_PAREN with
    | some i1 =>
      match pExpression fuel toks i1 with
      | .error e => .error e
      | .ok (e, i2) =>
        match consumeTok toks i2 .RIGHT_PAREN "Expect ')' after expression." with
        | .ok (_, i3) => .ok (.grouping e, i3)
        | .error e => .error e
    | none => .error ("Expected expression at line " ++ toString (peekTok toks i).line)

  termination_by structural fuel _ _ => fuel
end

/-- The `while not self.is_at_end()` loop of `Parser.parse`. -/
def pProgram : Nat → List Token → Nat → List Stmt → Except String (List Stmt)
  | 0, _, _, _ => .error "parser fuel exhausted"
  | fuel + 1, toks, i, acc =>
    if (peekTok toks i).type = .EOF then .ok acc
    else
      match pDeclaration fuel toks i with
      | .ok (s, i1) => pProgram fuel toks i1 (acc ++ [s])
      | .error e => .error e

/-- `Parser(tokens).parse()`.  Fuel is generous enough that exhaustion is
unreachable on token lists the lexer produces. -/
def parseTokens (toks : List Token) : Except String (List Stmt) :=
  pProgram ((toks.length + 1) * 10) toks 0 []

/-! ## Runtime values

Python runtime values flowing through the interpreter.  Environments are
mutable heap objects in Python; closures and namespaces reference them, so
the model refers to environments by numeric heap ids. -/

inductive Value where
  | nil
  | bool (b : Bool)
  | int (n : ℤ)
  | float (q : PyFloat)
  | str (s : String)
  | closure (name : String) (params : List String) (body : List Stmt) (env : Nat)
  | builtin (name : String)
  | namespaceV (entries : List (String × Value))

/-- Association-list get, mirroring Python `dict` lookup. -/
def alGet {α : Type} : List (String × α) → String → Option α
  | [], _ => none
  | (k, v) :: tl, key => if k = key then some v else alGet tl key

/-- Association-list membership (`name in self.values`). -/
def alContains {α : Type} (l : List (String × α)) (k : String) : Bool :=
  (alGet l k).isSome

/-- Association-list set, mirroring Python `dict` assignment: overwrite in
place if present (keeping insertion order), else append. -/
def alSet {α : Type} : List (String × α) → String → α → List (String × α)
  | [], key, v => [(key, v)]
  | (k, w) :: tl, key, v =>
    if k = key then (k, v) :: tl else (k, w) :: alSet tl key v

/-- `str(float)` for an exactly-represented float.  Python prints
integer-valued floats as `n.0`; non-integral rationals never reach a print
in the verified programs and get a nominal rendering. -/
def floatRepr (q : PyFloat) : String :=
  if q.isInt then toString q.trunc ++ ".0"
  else "<float " ++ toString q.num ++ "/" ++ toString q.den ++ ">"

/-- Python `str(value)`, as used by `print` and string coercion.  Closures,
builtins and namespaces print with an object address in Python; they are
never printed in the verified programs and get nominal renderings. -/
def pyStr : Value → String
  | .nil => "None"
  | .bool true => "True"
  | .bool false => "False"
  | .int n => toString n
  | .float q => floatRepr q
  | .str s => s
  | .closure n _ _ _ => "<function " ++ n ++ ">"
  | .builtin n => "<builtin " ++ n ++ ">"
  | .namespaceV _ => "namespace(...)"

/-- Python `repr(value)` (used in coercion error messages).  Strings are
quoted; the quote-escaping subtleties are irrelevant to the claims. -/
def pyRepr : Value → String
  | .str s => "'" ++ s ++ "'"
  | v => pyStr v

/-- `Interpreter.is_truthy`: `None` is false, booleans pass through,
everything else (including `0` and `""`) is true. -/
def isTruthy : Value → Bool
  | .nil => false
  | .bool b => b
  | _ => true

/-- Python truthiness (`bool(value)`), used by the `bool` coercion
fallback: `0`, `0.0` and `""` are falsy, unlike `Interpreter.is_truthy`. -/
def pyTruthy : Value → Bool
  | .nil => false
  | .bool b => b
  | .int n => n ≠ 0
  | .float q => !q.isZero
  | .str s => s ≠ ""
  | _ => true

/-- Numeric view: Python treats `bool` as an `int` subtype, so `True`
counts as `1` in arithmetic and comparisons. -/
def valAsFloat : Value → Option PyFloat
  | .bool b => some (.ofInt (if b then 1 else 0))
  | .int n => some (.ofInt n)
  | .float q => some q
  | _ => none

/-- `isinstance(v, (int, float))` (booleans are ints in Python). -/
def isPyNum (v : Value) : Bool := (valAsFloat v).isSome

/-- Python `==` on the values the programs compare: numbers compare
numerically across `bool`/`int`/`float`, strings structurally; distinct
objects of other kinds compare unequal (identity-based). -/
def pyEq (a b : Value) : Bool :=
  match valAsFloat a, valAsFloat b with
  | some x, some y => x.beq y
  | _, _ =>
    match a, b with
    | .str x, .str y => x = y
    | .nil, .nil => true
    | _, _ => false

/-- `Interpreter.is_equal`: `nil == nil`, `nil` equal to nothing else,
otherwise Python `==`. -/
def isEqual (a b : Value) : Bool :=
  match a, b with
  | .nil, .nil => true
  | .nil, _ => false
  | _, _ => pyEq a b

/-- ASCII lowercase of a character (`str.lower()`; the verified programs
are ASCII). -/
def charLower (c : Char) : Char :=
  if 'A' ≤ c && c ≤ 'Z' then Char.ofNat (c.toNat + 32) else c

/-- Python `str.lower()`. -/
def pyToLower (s : String) : String :=
  String.mk (s.toList.map charLower)

/-- Python `str.strip()` (whitespace from both ends). -/
def pyStrip (s : String) : String :=
  String.mk (((s.toList.dropWhile pyIsSpace).reverse.dropWhile pyIsSpace).reverse)

/-- All-digits parse helper. -/
def parseDigits : List Char → Option Nat
  | cs => if cs ≠ [] && cs.all pyIsDigit then some (charsToNat cs) else none

/-- Python `int(s)` on a string: optional sign and decimal digits after
stripping whitespace (underscore separators are not modelled). -/
def pyIntOfString (s : String) : Option ℤ :=
  match (pyStrip s).toList with
  | '+' :: tl => (parseDigits tl).map Int.ofNat
  | '-' :: tl => (parseDigits tl).map (fun n => -(n : ℤ))
  | cs => (parseDigits cs).map Int.ofNat

/-- Decimal body of a float literal: `digits`, `digits.digits`, `.digits`
or `digits.` with at least one digit. -/
def parseFloatBody (cs : List Char) : Option PyFloat :=
  let ip := cs.takeWhile pyIsDigit
  let rest := cs.dropWhile pyIsDigit
  match rest with
  | [] => if ip.isEmpty then none else some (.ofInt (charsToNat ip))
  | '.' :: fp =>
    if fp.all pyIsDigit && !(ip.isEmpty && fp.isEmpty) then
      some ⟨(charsToNat ip : Int) * (10 : Int) ^ fp.length + (charsToNat fp : Int),
            (10 : Int) ^ fp.length⟩
    else none
  | _ => none

/-- Python `float(s)` on a string: sign and decimal body after stripping
(exponents, `inf` and `nan` are outside the exact-rational model). -/
def pyFloatOfString (s : String) : Option PyFloat :=
  match (pyStrip s).toList with
  | '+' :: tl => parseFloatBody tl
  | '-' :: tl => (parseFloatBody tl).map PyFloat.neg
  | cs => parseFloatBody cs

/-- Python `float(value)`. -/
def pyFloat : Value → Except String PyFloat
  | .float q => .ok q
  | .int n => .ok (.ofInt n)
  | .bool b => .ok (.ofInt (if b then 1 else 0))
  | .str s =>
    match pyFloatOfString s with
    | some q => .ok q
    | none => .error ("could not convert string to float: '" ++ s ++ "'")
  | .nil => .error "float() argument must be a string or a real number, not 'NoneType'"
  | _ => .error "float() argument must be a string or a real number"

/-- Python `int(value)`. -/
def pyInt : Value → Except String ℤ
  | .int n => .ok n
  | .bool b => .ok (if b then 1 else 0)
  | .float q => .ok q.trunc
  | .str s =>
    match pyIntOfString s with
    | some n => .ok n
    | none => .error ("invalid literal for int() with base 10: '" ++ s ++ "'")
  | .nil => .error "int() argument must be a string or a real number, not 'NoneType'"
  | _ => .error "int() argument error"

/-- The `CoercionError` message of `Interpreter.coerce_value`. -/
def coercionMsg (value : Value) (vtype : String) (e : String) : String :=
  "Cannot coerce value " ++ pyRepr value ++ " to type '" ++ vtype ++ "': " ++ e

/-- `Interpreter.coerce_value(value, vtype)`.

`int` tries `int(value)`, then `int(float(value))`; in the exact-rational
model `int()` of a successfully parsed float never fails (Python fails only
for `inf`/`nan`, which the model cannot represent), so the source's final
`return float(value)` fallback is unreachable and the remaining failure is
the wrapped `CoercionError`.  `bool` passes booleans through, maps the
stripped lowercase strings `true/1/yes` and `false/0/no`, otherwise falls
back to Python truthiness.  Unknown type names return the value
unchanged. -/
def coerceValue (value : Value) (vtype : String) : Except String Value :=
  let vt := pyToLower vtype
  if vt = "int" then
    match pyInt value with
    | .ok n => .ok (.int n)
    | .error _ =>
      match pyFloat value with
      | .ok q => .ok (.int q.trunc)
      | .error e => .error (coercionMsg value vtype e)
  else if vt = "float" then
    match pyFloat value with
    | .ok q => .ok (.float q)
    | .error e => .error (coercionMsg value vtype e)
  else if vt = "string" || vt = "str" then .ok (.str (pyStr value))
  else if vt = "bool" then
    match value with
    | .bool b => .ok (.bool b)
    | .str s =>
      let v := pyToLower (pyStrip s)
      if v = "true" || v = "1" || v = "yes" then .ok (.bool true)
      else if v = "false" || v = "0" || v = "no" then .ok (.bool false)
      else .ok (.bool (pyTruthy value))
    | _ => .ok (.bool (pyTruthy value))
  else .ok value

/-! ## Environments (`Environment` in `src/interpreter.py`)

An environment owns a name→value map, a name→declared-type map, and an
optional reference to its enclosing environment.  Environments are mutable
and shared (closures capture them), so the model keeps them in a heap
indexed by `Nat`; a freshly created environment always refers to an
already-existing (hence lower-id) enclosing environment, which also makes
the chain-walking recursions below well-founded. -/

structure EnvData where
  values : List (String × Value)
  types : List (String × String)
  enclosing : Option Nat

def getEnv (heap : List EnvData) (i : Nat) : EnvData :=
  heap.getD i ⟨[], [], none⟩

def undefinedMsg (name : String) : String :=
  "Undefined variable '" ++ name ++ "'"

/-- `Environment.get`: look in this scope, else walk outward; raise
`Undefined variable` at the root.  The outward walk only follows enclosing
links to strictly smaller ids (every environment the interpreter creates
refers to an older enclosing one), so the fuel `i + 1` supplied by the
`envGet` wrapper is always sufficient and the `0` branch is unreachable. -/
def envGetAux (heap : List EnvData) : Nat → Nat → String → Except String Value
  | 0, _, name => .error (undefinedMsg name)
  | fuel + 1, i, name =>
    match alGet (getEnv heap i).values name with
    | some v => .ok v
    | none =>
      match (getEnv heap i).enclosing with
      | some j =>
        if j < i then envGetAux heap fuel j name
        else .error (undefinedMsg name)
      | none => .error (undefinedMsg name)

def envGet (heap : List EnvData) (i : Nat) (name : String) : Except String Value :=
  envGetAux heap (i + 1) i name

/-- `Environment.get_type`: same outward walk on the declared-type maps,
returning `none` when exhausted. -/
def envGetTypeAux (heap : List EnvData) : Nat → Nat → String → Option String
  | 0, _, _ => none
  | fuel + 1, i, name =>
    match alGet (getEnv heap i).types name with
    | some t => some t
    | none =>
      match (getEnv heap i).enclosing with
      | some j =>
        if j < i then envGetTypeAux heap fuel j name
        else none
      | none => none

def envGetType (heap : List EnvData) (i : Nat) (name : String) : Option String :=
  envGetTypeAux heap (i + 1) i name

/-- `Environment.assign`: overwrite in the nearest scope that defines the
name, else walk outward; raise `Undefined variable` at the root (assignment
never creates a binding). -/
def envAssignAux (heap : List EnvData) :
    Nat → Nat → String → Value → Except String (List EnvData)
  | 0, _, name, _ => .error (undefinedMsg name)
  | fuel + 1, i, name, v =>
    if alContains (getEnv heap i).values name then
      .ok (heap.set i { getEnv heap i with values := alSet (getEnv heap i).values name v })
    else
      match (getEnv heap i).enclosing with
      | some j =>
        if j < i then envAssignAux heap fuel j name v
        else .error (undefinedMsg name)
      | none => .error (undefinedMsg name)

def envAssign (heap : List EnvData) (i : Nat) (name : String) (v : Value) :
    Except String (List EnvData) :=
  envAssignAux heap (i + 1) i name v

/-- Whether any environment on the chain from `i` outward defines `name`. -/
def chainDefinesAux (heap : List EnvData) : Nat → Nat → String → Bool
  | 0, _, _ => false
  | fuel + 1, i, name =>
    if alContains (getEnv heap i).values name then true
    else
      match (getEnv heap i).enclosing with
      | some j =>
        if j < i then chainDefinesAux heap fuel j name
        else false
      | none => false

def chainDefines (heap : List EnvData) (i : Nat) (name : String) : Bool :=
  chainDefinesAux heap (i + 1) i name

/-! ## Interpreter state -/

structure InterpState where
  heap : List EnvData
  current : Nat
  cache : List (String × Option Value)
  output : List String

/-- External collaborators of the interpreter: the directories searched by
`import` (working directory, repository root, `<root>/examples`), the file
system contents, and the Python-module fallback (`__import__` drill-down),
which is opaque host behaviour. -/
structure Config where
  cwd : String
  repoRoot : String
  fs : List (String × String)
  pyImport : List String → Option Value

def pathJoin (a b : String) : String := a ++ "/" ++ b

/-- Candidate file list of the `ImportStmt` branch: for each search
directory, `<base>/<parts>.capla` and `<base>/<parts>/__init__.capla`. -/
def importCandidates (cfg : Config) (parts : List String) : List String :=
  let rel := String.intercalate "/" parts
  ([cfg.cwd, cfg.repoRoot, pathJoin cfg.repoRoot "examples"].map fun base =>
    [pathJoin base rel ++ ".capla", pathJoin (pathJoin base rel) "__init__.capla"]).flatten

/-- First candidate that is a file (`os.path.isfile`). -/
def importResolve (cfg : Config) (parts : List String) : Option String :=
  (importCandidates cfg parts).find? fun c => (alGet cfg.fs c).isSome

/-- The cache check of the `ImportStmt` branch:
`modname in self.module_cache and self.module_cache[modname] is not None`.
An entry holding `none` (the "loading"/"failed" marker, Python `None`)
does NOT count as a hit. -/
def cacheHit (cache : List (String × Option Value)) (m : String) : Option Value :=
  match alGet cache m with
  | some (some v) => some v
  | _ => none

/-- `Environment(enclosing)`: allocate a fresh environment. -/
def newEnv (st : InterpState) (encl : Option Nat) : Nat × InterpState :=
  (st.heap.length, { st with heap := st.heap ++ [⟨[], [], encl⟩] })

/-- `Environment.define` on the environment with id `envId`. -/
def defineVar (st : InterpState) (envId : Nat) (name : String) (v : Value) :
    InterpState :=
  let d := getEnv st.heap envId
  { st with heap := st.heap.set envId { d with values := alSet d.values name v } }

/-- `self.environment.types[name] = vtype` (direct, current scope only). -/
def recordType (st : InterpState) (envId : Nat) (name t : String) : InterpState :=
  let d := getEnv st.heap envId
  { st with heap := st.heap.set envId { d with types := alSet d.types name t } }

/-- `print(...)` to program output. -/
def emit (st : InterpState) (line : String) : InterpState :=
  { st with output := st.output ++ [line] }

/-- `Lexer(src).scan_tokens()` then `Parser(tokens).parse()`, as the import
machinery does for a module source file. -/
def lexParse (src : String) : Except String (List Stmt) :=
  match scanTokens src with
  | .ok toks => parseTokens toks
  | .error e => .error e

def valOfLit : LitVal → Value
  | .num q => .float q
  | .str s => .str s
  | .bool b => .bool b
  | .nil => .nil

/-- `FunctionCallable`: a function declaration paired with its captured
definition environment. -/
structure FunctionCallable where
  name : String
  params : List String
  body : List Stmt
  closure : Nat

/-- Outcome of evaluating an expression: a value, a raised runtime error,
or divergence (fuel exhaustion, modelling non-termination — never caught by
any handler). -/
inductive VOut where
  | ok (v : Value)
  | err (msg : String)
  | div

/-- Outcome of executing a statement: normal completion, a `ReturnException`
unwind carrying the returned value, a raised runtime error, or
divergence. -/
inductive SOut where
  | ok
  | ret (v : Value)
  | err (msg : String)
  | div

/-- Pure part of the `Binary` branch of `Interpreter.evaluate`: arithmetic
coerces both operands with `float()`; `+` requires two numbers (Python
counts booleans as numbers) or two strings; `/` is Python float division
(raising on a zero divisor); comparisons coerce with `float()`; equality
uses `is_equal`.  An operator token outside the handled set falls off the
end of the Python method and yields `None`. -/
def binOp (op : TokenType) (l r : Value) : VOut :=
  if op = .MINUS then
    match pyFloat l with
    | .error m => .err m
    | .ok a => match pyFloat r with
      | .error m => .err m
      | .ok b => .ok (.float (a.sub b))
  else if op = .SLASH then
    match pyFloat l with
    | .error m => .err m
    | .ok a => match pyFloat r with
      | .error m => .err m
      | .ok b => if b.isZero then .err "float division by zero" else .ok (.float (a.div b))
  else if op = .STAR then
    match pyFloat l with
    | .error m => .err m
    | .ok a => match pyFloat r with
      | .error m => .err m
      | .ok b => .ok (.float (a.mul b))
  else if op = .PLUS then
    if isPyNum l && isPyNum r then
      match l, r with
      | .float a, _ => .ok (.float (a.add ((valAsFloat r).getD (.ofInt 0))))
      | _, .float b => .ok (.float (((valAsFloat l).getD (.ofInt 0)).add b))
      | _, _ =>
        .ok (.int ((match l with | .bool b => if b then 1 else 0 | .int n => n | _ => 0) +
                   (match r with | .bool b => if b then 1 else 0 | .int n => n | _ => 0)))
    else match l, r with
      | .str a, .str b => .ok (.str (a ++ b))
      | _, _ => .err "Operands must be two numbers or two strings"
  else if op = .GREATER then
    match pyFloat l with
    | .error m => .err m
    | .ok a => match pyFloat r with
      | .error m => .err m
      | .ok b => .ok (.bool (b.blt a))
  else if op = .GREATER_EQUAL then
    match pyFloat l with
    | .error m => .err m
    | .ok a => match pyFloat r with
      | .error m => .err m
      | .ok b => .ok (.bool (b.ble a))
  else if op = .LESS then
    match pyFloat l with
    | .error m => .err m
    | .ok a => match pyFloat r with
      | .error m => .err m
      | .ok b => .ok (.bool (a.blt b))
  else if op = .LESS_EQUAL then
    match pyFloat l with
    | .error m => .err m
    | .ok a => match pyFloat r with
      | .error m => .err m
      | .ok b => .ok (.bool (a.ble b))
  else if op = .BANG_EQUAL then .ok (.bool (!(isEqual l r)))
  else if op = .EQUAL_EQUAL then .ok (.bool (isEqual l r))
  else .ok .nil

/-- The argument-evaluation outcome of a call. -/
inductive AOut where
  | ok (vs : List Value)
  | err (msg : String)
  | div

/-- The parameter-binding loop of `FunctionCallable.call`:
`value = args[i] if i < len(args) else None; env.define(name, value)`. -/
def bindLoop (st : InterpState) (envId : Nat) :
    List String → List Value → Nat → InterpState
  | [], _, _ => st
  | p :: ps, args, i =>
    bindLoop (defineVar st envId p (args.getD i .nil)) envId ps args (i + 1)

/-- `env = Environment(self.closure)` followed by the binding loop. -/
def callSetup (st : InterpState) (f : FunctionCallable) (args : List Value) :
    Nat × InterpState :=
  let (envId, st1) := newEnv st (some f.closure)
  (envId, bindLoop st1 envId f.params args 0)

/-- How `FunctionCallable.call` maps the body's outcome to the call's
result: catching `ReturnException` yields its value, falling through
yields `None`, runtime errors propagate. -/
def callResult : SOut → VOut
  | .ok => .ok .nil
  | .ret v => .ok v
  | .err m => .err m
  | .div => .div

/-- The continuation of the `ImportStmt` found-file branch after the
module body has executed: the `try`'s success path builds the namespace
from the module environment's bindings, caches it and binds it; the
`except Exception` path (runtime errors, and a module-level
`ReturnException`, which is also an `Exception`) caches `None` and binds
`None`; divergence propagates uncaught. -/
def finishModuleExec (modname last : String) (envId : Nat) :
    InterpState × SOut → InterpState × SOut
  | (st3, .ok) =>
    let ns := Value.namespaceV (getEnv st3.heap envId).values
    let st4 := { st3 with cache := alSet st3.cache modname (some ns) }
    (defineVar st4 st4.current last ns, .ok)
  | (st3, .ret _) =>
    let st4 := { st3 with cache := alSet st3.cache modname none }
    (defineVar st4 st4.current last .nil, .ok)
  | (st3, .err _) =>
    let st4 := { st3 with cache := alSet st3.cache modname none }
    (defineVar st4 st4.current last .nil, .ok)
  | (st3, .div) => (st3, .div)

mutual

/-- `Interpreter.evaluate`. -/
def evaluate (cfg : Config) : Nat → InterpState → Expr → InterpState × VOut
  | 0, st, _ => (st, .div)
  | fuel + 1, st, e =>
    match e with
    | .literal v => (st, .ok (valOfLit v))
    | .grouping g => evaluate cfg fuel st g
    | .unary op r =>
      match evaluate cfg fuel st r with
      | (st1, .ok rv) =>
        if op = .MINUS then
          match pyFloat rv with
          | .ok q => (st1, .ok (.float q.neg))
          | .error m => (st1, .err m)
        else if op = .BANG then (st1, .ok (.bool (!(isTruthy rv))))
        else (st1, .ok .nil)
      | (st1, .err m) => (st1, .err m)
      | (st1, .div) => (st1, .div)
    | .binary l op r =>
      match evaluate cfg fuel st l with
      | (st1, .ok lv) =>
        match evaluate cfg fuel st1 r with
        | (st2, .ok rv) => (st2, binOp op lv rv)
        | (st2, .err m) => (st2, .err m)
        | (st2, .div) => (st2, .div)
      | (st1, .err m) => (st1, .err m)
      | (st1, .div) => (st1, .div)
    | .varRef name =>
      match envGet st.heap st.current name with
      | .ok v => (st, .ok v)
      | .error m => (st, .err m)
    | .call callee args =>
      match evaluate cfg fuel st callee with
      | (st1, .ok cv) =>
        match evalArgs cfg fuel st1 args with
        | (st2, .ok vs) =>
          match cv with
          | .closure n params body env => callFn cfg fuel st2 ⟨n, params, body, env⟩ vs
          | .builtin _ => (st2, .ok .nil)
          | _ => (st2, .err "Can only call functions and callable objects")
        | (st2, .err m) => (st2, .err m)
        | (st2, .div) => (st2, .div)
      | (st1, .err m) => (st1, .err m)
      | (st1, .div) => (st1, .div)
    | .get obj name =>
      match evaluate cfg fuel st obj with
      | (st1, .ok ov) =>
        match ov with
        | .namespaceV entries =>
          match alGet entries name with
          | some v => (st1, .ok v)
          | none => (st1, .err ("Attribute '" ++ name ++ "' not found on object"))
        | _ => (st1, .err ("Attribute '" ++ name ++ "' not found on object"))
      | (st1, .err m) => (st1, .err m)
      | (st1, .div) => (st1, .div)
    | .assign name value =>
      match evaluate cfg fuel st value with
      | (st1, .ok v) =>
        let coerced : Except String Value :=
          match envGetType st1.heap st1.current name with
          | some t => coerceValue v t
          | none => .ok v
        match coerced with
        | .ok v2 =>
          match envAssign st1.heap st1.current name v2 with
          | .ok heap1 => ({ st1 with heap := heap1 }, .ok v2)
          | .error m => (st1, .err m)
        | .error m => (st1, .err m)
      | (st1, .err m) => (st1, .err m)
      | (st1, .div) => (st1, .div)

/-- Left-to-right evaluation of a call's argument list. -/
def evalArgs (cfg : Config) : Nat → InterpState → List Expr → InterpState × AOut
  | 0, st, _ => (st, .div)
  | _ + 1, st, [] => (st, .ok [])
  | fuel + 1, st, e :: rest =>
    match evaluate cfg fuel st e with
    | (st1, .ok v) =>
      match evalArgs cfg fuel st1 rest with
      | (st2, .ok vs) => (st2, .ok (v :: vs))
      | (st2, .err m) => (st2, .err m)
      | (st2, .div) => (st2, .div)
    | (st1, .err m) => (st1, .err m)
    | (st1, .div) => (st1, .div)

/-- `FunctionCallable.call`. -/
def callFn (cfg : Config) : Nat → InterpState → FunctionCallable → List Value →
    InterpState × VOut
  | 0, st, _, _ => (st, .div)
  | fuel + 1, st, f, args =>
    let setup := callSetup st f args
    let r := execBlock cfg fuel setup.2 f.body setup.1
    (r.1, callResult r.2)

/-- `Interpreter.execute`. -/
def execute (cfg : Config) : Nat → InterpState → Stmt → InterpState × SOut
  | 0, st, _ => (st, .div)
  | fuel + 1, st, s =>
    match s with
    | .expression e =>
      match evaluate cfg fuel st e with
      | (st1, .ok _) => (st1, .ok)
      | (st1, .err m) => (st1, .err m)
      | (st1, .div) => (st1, .div)
    | .print e =>
      match evaluate cfg fuel st e with
      | (st1, .ok v) => (emit st1 (pyStr v), .ok)
      | (st1, .err m) => (st1, .err m)
      | (st1, .div) => (st1, .div)
    | .varDecl name vtype init =>
      let evaled : InterpState × VOut :=
        match init with
        | some e => evaluate cfg fuel st e
        | none => (st, .ok .nil)
      match evaled with
      | (st1, .ok v) =>
        match vtype with
        | some t =>
          match coerceValue v t with
          | .ok v2 =>
            let st2 := recordType st1 st1.current name t
            (defineVar st2 st2.current name v2, .ok)
          | .error m => (st1, .err m)
        | none => (defineVar st1 st1.current name v, .ok)
      | (st1, .err m) => (st1, .err m)
      | (st1, .div) => (st1, .div)
    | .block stmts =>
      let alloc := newEnv st (some st.current)
      execBlock cfg fuel alloc.2 stmts alloc.1
    | .ifS cond thenB elseB =>
      match evaluate cfg fuel st cond with
      | (st1, .ok c) =>
        if isTruthy c then execute cfg fuel st1 thenB
        else
          match elseB with
          | some e => execute cfg fuel st1 e
          | none => (st1, .ok)
      | (st1, .err m) => (st1, .err m)
      | (st1, .div) => (st1, .div)
    | .whileS cond body =>
      match evaluate cfg fuel st cond with
      | (st1, .ok c) =>
        if isTruthy c then
          match execute cfg fuel st1 body with
          | (st2, .ok) => execute cfg fuel st2 (.whileS cond body)
          | (st2, .ret v) => (st2, .ret v)
          | (st2, .err m) => (st2, .err m)
          | (st2, .div) => (st2, .div)
        else (st1, .ok)
      | (st1, .err m) => (st1, .err m)
      | (st1, .div) => (st1, .div)
    | .funcDecl name params body =>
      (defineVar st st.current name (.closure name params body st.current), .ok)
    | .ret value =>
      match value with
      | some e =>
        match evaluate cfg fuel st e with
        | (st1, .ok v) => (st1, .ret v)
        | (st1, .err m) => (st1, .err m)
        | (st1, .div) => (st1, .div)
      | none => (st, .ret .nil)
    | .importDecl parts => execImport cfg fuel st parts

/-- The `ImportStmt` branch of `Interpreter.execute`.  Note that the
"loading" marker (`self.module_cache[modname] = None`) set before executing
a found module is never consulted: the cache check only returns early for a
non-`None` entry, so a cyclically imported module is resolved and executed
again.  Any exception during module execution (including a module-level
`ReturnException`) is caught, leaving the module bound to `None`. -/
def execImport (cfg : Config) : Nat → InterpState → List String → InterpState × SOut
  | 0, st, _ => (st, .div)
  | fuel + 1, st, parts =>
    let modname := String.intercalate "." parts
    let last := parts.getLastD ""
    match cacheHit st.cache modname with
    | some m => (defineVar st st.current last m, .ok)
    | none =>
      match importResolve cfg parts with
      | some path =>
        let st1 := { st with cache := alSet st.cache modname none }
        match lexParse ((alGet cfg.fs path).getD "") with
        | .error _ =>
          let st2 := { st1 with cache := alSet st1.cache modname none }
          (defineVar st2 st2.current last .nil, .ok)
        | .ok stmts =>
          let alloc := newEnv st1 (some st1.current)
          finishModuleExec modname last alloc.1 (execBlock cfg fuel alloc.2 stmts alloc.1)
      | none =>
        let obj := cfg.pyImport parts
        let st1 := { st with cache := alSet st.cache modname obj }
        (defineVar st1 st1.current last (obj.getD .nil), .ok)

/-- `Interpreter.execute_block`: swap in the new environment, run the
statements, and restore the previous current-environment pointer
unconditionally (the `finally`), on every exit path. -/
def execBlock (cfg : Config) : Nat → InterpState → List Stmt → Nat →
    InterpState × SOut
  | 0, st, _, _ => (st, .div)
  | fuel + 1, st, stmts, envId =>
    let prev := st.current
    let r := execStmts cfg fuel { st with current := envId } stmts
    ({ r.1 with current := prev }, r.2)

/-- The statement loop shared by `Interpreter.interpret` and
`Interpreter.execute_block`. -/
def execStmts (cfg : Config) : Nat → InterpState → List Stmt → InterpState × SOut
  | 0, st, _ => (st, .div)
  | _ + 1, st, [] => (st, .ok)
  | fuel + 1, st, s :: rest =>
    match execute cfg fuel st s with
    | (st1, .ok) => execStmts cfg fuel st1 rest
    | (st1, .ret v) => (st1, .ret v)
    | (st1, .err m) => (st1, .err m)
    | (st1, .div) => (st1, .div)

end

/-- `Interpreter.interpret` (with `debug = False`, as `run.py` constructs
it): run the statements; catch any exception, print
`Runtime error: {error}` and report failure.  A top-level
`ReturnException` is an `Exception` and is caught the same way; Python's
`str` of it is the `str` of the returned value.  `none` models a
non-terminating run. -/
def interpret (cfg : Config) (fuel : Nat) (st : InterpState) (stmts : List Stmt) :
    InterpState × Option Bool :=
  match execStmts cfg fuel st stmts with
  | (st1, .ok) => (st1, some true)
  | (st1, .err m) => (emit st1 ("Runtime error: " ++ m), some false)
  | (st1, .ret v) => (emit st1 ("Runtime error: " ++ pyStr v), some false)
  | (st1, .div) => (st1, none)

/-- `Interpreter.__init__`: the root environment binds the `input` and
`sleep` host callables; empty module cache. -/
def initState : InterpState :=
  { heap := [⟨[("input", .builtin "input"), ("sleep", .builtin "sleep")], [], none⟩],
    current := 0, cache := [], output := [] }

/-- The `mode == 'run'` pipeline of `run.py`: lex, parse, interpret,
collecting the printed output and the success flag. -/
def runProgram (cfg : Config) (fuel : Nat) (src : String) :
    Except String (List String × Option Bool) :=
  match scanTokens src with
  | .error e => .error e
  | .ok toks =>
    match parseTokens toks with
    | .error e => .error e
    | .ok stmts =>
      let r := interpret cfg fuel initState stmts
      .ok (r.1.output, r.2)

/-! ## Compiler backend (`src/compiler.py`)

Emits Python text for the same AST.  The only emission state is the
`needs_time` flag, set when a call site references the builtin `sleep` by
name; it is threaded through explicitly here. -/

/-- `compile_literal`: `None`, `repr` for strings, `str` otherwise
(`str(True) = "True"`, `str(2.0) = "2.0"`). -/
def compileLiteral : LitVal → String
  | .nil => "None"
  | .str s => "'" ++ s ++ "'"
  | .bool true => "True"
  | .bool false => "False"
  | .num q => floatRepr q

/-- Operator text of `compile_binary`; `none` models the
`Unknown binary operator` exception. -/
def binOpText : TokenType → Option String
  | .PLUS => some "+"
  | .MINUS => some "-"
  | .STAR => some "*"
  | .SLASH => some "/"
  | .EQUAL_EQUAL => some "=="
  | .BANG_EQUAL => some "!="
  | .LESS => some "<"
  | .LESS_EQUAL => some "<="
  | .GREATER => some ">"
  | .GREATER_EQUAL => some ">="
  | _ => none

/- Fuel note: the Python compiler recurses structurally on the AST and
always terminates; the fuel parameter below only bounds that recursion so
the definitions stay kernel-computable, and any fuel at least the size of
the tree behaves identically. -/

mutual

/-- `Compiler.compile_expr`, threading the `needs_time` flag. -/
def compileExpr : Nat → Bool → Expr → Except String (String × Bool)
  | 0, _, _ => .error "compiler fuel exhausted"
  | fuel + 1, nt, e =>
    match e with
    | .binary l op r =>
      match compileExpr fuel nt l with
      | .error e => .error e
      | .ok (ls, nt1) =>
        match compileExpr fuel nt1 r with
        | .error e => .error e
        | .ok (rs, nt2) =>
          match binOpText op with
          | some o => .ok ("(" ++ ls ++ " " ++ o ++ " " ++ rs ++ ")", nt2)
          | none => .error "Unknown binary operator"
    | .grouping g =>
      match compileExpr fuel nt g with
      | .error er => .error er
      | .ok (s, nt1) => .ok ("(" ++ s ++ ")", nt1)
    | .literal v => .ok (compileLiteral v, nt)
    | .unary op r =>
      match compileExpr fuel nt r with
      | .error e => .error e
      | .ok (rs, nt1) =>
        if op = .MINUS then .ok ("(-" ++ rs ++ ")", nt1)
        else if op = .BANG then .ok ("(not " ++ rs ++ ")", nt1)
        else .error "Unknown unary operator"
    | .varRef name => .ok (name, nt)
    | .get obj name =>
      match compileExpr fuel nt obj with
      | .error e => .error e
      | .ok (os, nt1) => .ok (os ++ "." ++ name, nt1)
    | .call callee args =>
      match compileExpr fuel nt callee with
      | .error e => .error e
      | .ok (cs, nt1) =>
        match compileArgs fuel nt1 args with
        | .error e => .error e
        | .ok (as_, nt2) =>
          let joined := String.intercalate ", " as_
          if cs = "sleep" then .ok ("time.sleep(" ++ joined ++ ")", true)
          else .ok (cs ++ "(" ++ joined ++ ")", nt2)
    | .assign name value =>
      match compileExpr fuel nt value with
      | .error e => .error e
      | .ok (vs, nt1) =>
        .ok (vs ++ "; " ++ name ++ " = " ++ vs ++ "; " ++ name, nt1)
  termination_by structural fuel _ _ => fuel

/-- Argument-list compilation of `compile_call`. -/
def compileArgs : Nat → Bool → List Expr → Except String (List String × Bool)
  | 0, _, _ => .error "compiler fuel exhausted"
  | _ + 1, nt, [] => .ok ([], nt)
  | fuel + 1, nt, e :: rest =>
    match compileExpr fuel nt e with
    | .error er => .error er
    | .ok (s, nt1) =>
      match compileArgs fuel nt1 rest with
      | .error er => .error er
      | .ok (ss, nt2) => .ok (s :: ss, nt2)
  termination_by structural fuel _ _ => fuel

end

/-- `indent_lines` with the default level. -/
def indentLines (lines : List String) : List String :=
  lines.map (fun l => "    " ++ l)

mutual

/-- `Compiler.compile_stmt`. -/
def compileStmt : Nat → Bool → Stmt → Except String (List String × Bool)
  | 0, _, _ => .error "compiler fuel exhausted"
  | fuel + 1, nt, s =>
    match s with
    | .importDecl parts => .ok (["import " ++ String.intercalate "." parts], nt)
    | .print e =>
      match compileExpr fuel nt e with
      | .error er => .error er
      | .ok (s, nt1) => .ok (["print(" ++ s ++ ")"], nt1)
    | .varDecl name _ init =>
      match init with
      | some e =>
        match compileExpr fuel nt e with
        | .error er => .error er
        | .ok (s, nt1) => .ok ([name ++ " = " ++ s], nt1)
      | none => .ok ([name ++ " = None"], nt)
    | .expression e =>
      match compileExpr fuel nt e with
      | .error er => .error er
      | .ok (s, nt1) => .ok ([s], nt1)
    | .block stmts => compileStmtList fuel nt stmts
    | .ifS cond thenB elseB =>
      match compileExpr fuel nt cond with
      | .error er => .error er
      | .ok (cs, nt1) =>
        match compileStmtBlock fuel nt1 thenB with
        | .error er => .error er
        | .ok (thenLines, nt2) =>
          match elseB with
          | some eb =>
            match compileStmtBlock fuel nt2 eb with
            | .error er => .error er
            | .ok (elseLines, nt3) =>
              .ok (["if " ++ cs ++ ":"] ++ indentLines thenLines ++
                   ["else:"] ++ indentLines elseLines, nt3)
          | none => .ok (["if " ++ cs ++ ":"] ++ indentLines thenLines, nt2)
    | .whileS cond body =>
      match compileExpr fuel nt cond with
      | .error er => .error er
      | .ok (cs, nt1) =>
        match compileStmtBlock fuel nt1 body with
        | .error er => .error er
        | .ok (bodyLines, nt2) =>
          .ok (["while " ++ cs ++ ":"] ++ indentLines bodyLines, nt2)
    | .funcDecl name params body =>
      match compileStmtList fuel nt body with
      | .error er => .error er
      | .ok (bodyLines, nt1) =>
        let bodyLines1 := if bodyLines.isEmpty then ["pass"] else bodyLines
        .ok (["def " ++ name ++ "(" ++ String.intercalate ", " params ++ "):"] ++
             indentLines bodyLines1, nt1)
    | .ret value =>
      match value with
      | some e =>
        match compileExpr fuel nt e with
        | .error er => .error er
        | .ok (s, nt1) => .ok (["return " ++ s], nt1)
      | none => .ok (["return"], nt)
  termination_by structural fuel _ _ => fuel

/-- Statement-list concatenation (block bodies, function bodies,
`compile_program`). -/
def compileStmtList : Nat → Bool → List Stmt → Except String (List String × Bool)
  | 0, _, _ => .error "compiler fuel exhausted"
  | _ + 1, nt, [] => .ok ([], nt)
  | fuel + 1, nt, s :: rest =>
    match compileStmt fuel nt s with
    | .error er => .error er
    | .ok (lines, nt1) =>
      match compileStmtList fuel nt1 rest with
      | .error er => .error er
      | .ok (lines1, nt2) => .ok (lines ++ lines1, nt2)
  termination_by structural fuel _ _ => fuel

/-- `Compiler.compile_stmt_block`: flatten a block, otherwise compile the
single statement. -/
def compileStmtBlock : Nat → Bool → Stmt → Except String (List String × Bool)
  | 0, _, _ => .error "compiler fuel exhausted"
  | fuel + 1, nt, s =>
    match s with
    | .block stmts => compileStmtList fuel nt stmts
    | s1 => compileStmt fuel nt s1
  termination_by structural fuel _ _ => fuel

end

/-- `Compiler().compile_program(statements)`: all statement lines, with
`import time` prepended when `needs_time` was set. -/
def compileProgram (fuel : Nat) (stmts : List Stmt) : Except String String :=
  match compileStmtList fuel false stmts with
  | .error er => .error er
  | .ok (lines, nt) =>
    let lines1 := if nt then "import time" :: lines else lines
    .ok (String.intercalate "\n" lines1)

/-! ## Host-language execution of the emitted text

`C4` compares interpreting an AST with executing the text the compiler
emits for it in the host language (Python).  The host language is an
external collaborator, not part of the repository; the following
definitions model its evaluation of the emitted text.  Emission is
compositional and injective on the program class the claim quantifies over
(print statements over literal/arithmetic expressions), so host execution
is modelled by structural recursion over the same AST: `pyEvalExpr e` is
the value Python computes for the emitted text `compile_expr(e)`, and
`pyRunEmitted ss` is the output of `run.py`'s compile mode, which `exec`s
`compile_program(ss)` and prints `Error running compiled code: {e}` if the
emitted code raises. -/

/-- Is this value a Python float? (controls int/float promotion). -/
def isFloatV : Value → Bool
  | .float _ => true
  | _ => false

/-- Integer view of an int-like Python number (`bool` is an `int`). -/
def intOfNum : Value → ℤ
  | .bool b => if b then 1 else 0
  | .int n => n
  | _ => 0

/-- Host (Python) semantics of the binary operator in the emitted text
`(left op right)`.  Arithmetic follows Python's native rules: `bool`/`int`
stay `int` unless a `float` is involved; `/` is true division and raises
`ZeroDivisionError`; `<`,`<=`,`>`,`>=` compare numbers numerically and
strings lexicographically; `==`/`!=` never raise.  Error messages for the
mixed-type cases are nominal (no verified program reaches them). -/
def pyBinOp (op : TokenType) (l r : Value) : Except String Value :=
  if op = .PLUS then
    match l, r with
    | .str a, .str b => .ok (.str (a ++ b))
    | _, _ =>
      if isPyNum l && isPyNum r then
        if isFloatV l || isFloatV r then
          .ok (.float (((valAsFloat l).getD (.ofInt 0)).add ((valAsFloat r).getD (.ofInt 0))))
        else .ok (.int (intOfNum l + intOfNum r))
      else .error "unsupported operand type(s) for +"
  else if op = .MINUS then
    if isPyNum l && isPyNum r then
      if isFloatV l || isFloatV r then
        .ok (.float (((valAsFloat l).getD (.ofInt 0)).sub ((valAsFloat r).getD (.ofInt 0))))
      else .ok (.int (intOfNum l - intOfNum r))
    else .error "unsupported operand type(s) for -"
  else if op = .STAR then
    if isPyNum l && isPyNum r then
      if isFloatV l || isFloatV r then
        .ok (.float (((valAsFloat l).getD (.ofInt 0)).mul ((valAsFloat r).getD (.ofInt 0))))
      else .ok (.int (intOfNum l * intOfNum r))
    else .error "unsupported operand type(s) for *"
  else if op = .SLASH then
    if isPyNum l && isPyNum r then
      if ((valAsFloat r).getD (.ofInt 0)).isZero then
        .error (if isFloatV l || isFloatV r then "float division by zero"
                else "division by zero")
      else .ok (.float (((valAsFloat l).getD (.ofInt 0)).div ((valAsFloat r).getD (.ofInt 0))))
    else .error "unsupported operand type(s) for /"
  else if op = .LESS then
    match valAsFloat l, valAsFloat r with
    | some a, some b => .ok (.bool (a.blt b))
    | _, _ =>
      match l, r with
      | .str a, .str b => .ok (.bool (a < b))
      | _, _ => .error "'<' not supported between instances"
  else if op = .LESS_EQUAL then
    match valAsFloat l, valAsFloat r with
    | some a, some b => .ok (.bool (a.ble b))
    | _, _ =>
      match l, r with
      | .str a, .str b => .ok (.bool (a ≤ b))
      | _, _ => .error "'<=' not supported between instances"
  else if op = .GREATER then
    match valAsFloat l, valAsFloat r with
    | some a, some b => .ok (.bool (b.blt a))
    | _, _ =>
      match l, r with
      | .str a, .str b => .ok (.bool (b < a))
      | _, _ => .error "'>' not supported between instances"
  else if op = .GREATER_EQUAL then
    match valAsFloat l, valAsFloat r with
    | some a, some b => .ok (.bool (b.ble a))
    | _, _ =>
      match l, r with
      | .str a, .str b => .ok (.bool (b ≤ a))
      | _, _ => .error "'>=' not supported between instances"
  else if op = .EQUAL_EQUAL then .ok (.bool (pyEq l r))
  else if op = .BANG_EQUAL then .ok (.bool (!(pyEq l r)))
  else .error "operator not emitted by the compiler"

/-- Host (Python) evaluation of the text `compile_expr(e)` emits for `e`.
Literals round-trip exactly (`eval(str(2.0)) = 2.0`, `eval(repr(s)) = s`);
unary `-` negates numbers natively (`-True = -1`, an `int`); `not` uses
Python truthiness.  Free variables raise `NameError`; constructs outside
the claim's program class are not modelled. -/
def pyEvalExpr : Expr → Except String Value
  | .literal v => .ok (valOfLit v)
  | .grouping e => pyEvalExpr e
  | .unary op r =>
    match pyEvalExpr r with
    | .error e => .error e
    | .ok v =>
      if op = .MINUS then
        match v with
        | .float q => .ok (.float q.neg)
        | .int n => .ok (.int (-n))
        | .bool b => .ok (.int (-(if b then (1 : ℤ) else 0)))
        | _ => .error "bad operand type for unary -"
      else if op = .BANG then .ok (.bool (!(pyTruthy v)))
      else .error "operator not emitted by the compiler"
  | .binary l op r =>
    match pyEvalExpr l with
    | .error e => .error e
    | .ok lv =>
      match pyEvalExpr r with
      | .error e => .error e
      | .ok rv => pyBinOp op lv rv
  | .varRef n => .error ("name '" ++ n ++ "' is not defined")
  | _ => .error "host execution not modelled for this construct"

/-- Output of `run.py` compile mode on a print-statement program: `exec`
prints each value with `print` (Python `str`), and a raised exception
stops execution with `Error running compiled code: {e}`.  Statements other
than `print` are outside the program class `C4` quantifies over. -/
def pyRunEmitted : List Stmt → List String
  | [] => []
  | .print e :: rest =>
    match pyEvalExpr e with
    | .ok v => pyStr v :: pyRunEmitted rest
    | .error m => ["Error running compiled code: " ++ m]
  | _ :: _ => ["Error running compiled code: statement not modelled"]

/-- Size measure used for fuel bounds on pure arithmetic expressions. -/
def exprSize : Expr → Nat
  | .binary l _ r => exprSize l + exprSize r + 1
  | .grouping e => exprSize e + 1
  | .unary _ r => exprSize r + 1
  | _ => 1

/-- Expressions built only from numeric literals, grouping, unary minus
and the arithmetic operators `+ - * /`. -/
def NumExpr : Expr → Bool
  | .literal (.num _) => true
  | .grouping e => NumExpr e
  | .unary op r => op = .MINUS && NumExpr r
  | .binary l op r =>
    (op = .PLUS || op = .MINUS || op = .STAR || op = .SLASH) &&
      NumExpr l && NumExpr r
  | _ => false

/-- Programs made only of print statements over `NumExpr` expressions. -/
def ArithPrintProgram (ss : List Stmt) : Bool :=
  ss.all fun s =>
    match s with
    | .print e => NumExpr e
    | _ => false

/-- Fuel sufficient to run a print-statement program to completion. -/
def stmtsNeed : List Stmt → Nat
  | [] => 1
  | .print e :: rest => 1 + max (exprSize e + 1) (stmtsNeed rest)
  | _ :: rest => 1 + stmtsNeed rest

/-! ## Verified properties -/

/-- A configuration with no module files on disk and no resolvable host
modules. -/
def emptyConfig : Config := ⟨"cwd", "root", [], fun _ => none⟩

/-- C1: the spec says `try { var y = undefined_var; } catch (e) { print e; }`
runs through the pipeline, prints an undefined-variable message from the
catch body and continues.  In the code, the lexer has no `try`/`catch`
keywords and the parser has no try grammar rule and no `TryStmt` node class
(the interpreter's `from parser import TryStmt` has nothing to import), so
`try` lexes as an ordinary identifier: the program parses as four unrelated
statements, and the run aborts on the first with
`Runtime error: Undefined variable 'try'` — the catch body never executes
and nothing is bound to `e`. -/
theorem try_catch_is_not_parsed :
    lexParse "try { var y = undefined_var; } catch (e) { print e; }"
      = .ok [.expression (.varRef "try"),
             .block [.varDecl "y" none (some (.varRef "undefined_var"))],
             .expression (.call (.varRef "catch") [.varRef "e"]),
             .block [.print (.varRef "e")]]
    ∧ runProgram emptyConfig 50 "try { var y = undefined_var; } catch (e) { print e; }"
      = .ok (["Runtime error: Undefined variable 'try'"], some false) :=
  ⟨rfl, by decide⟩

/-- C3 counterexample: the claimed output is `14` but the pipeline prints
`14.0` — the lexer makes every numeric literal a Python float, and
`print(14.0)` renders `14.0`. -/
theorem var_x_prints_fourteen_point_zero :
    runProgram emptyConfig 50 "var x = 2 + 3 * 4;\nprint x;"
      = .ok (["14.0"], some true)
    ∧ (["14.0"] : List String) ≠ ["14"] :=
  ⟨by decide, by decide⟩

/-- C3 (amended): multiplication binds tighter than addition — the parsed
initializer is `2 + (3 * 4)` — and the program prints exactly `14.0`
(the float value fourteen). -/
theorem var_x_precedence_and_output :
    lexParse "var x = 2 + 3 * 4;\nprint x;"
      = .ok [.varDecl "x" none
               (some (.binary (.literal (.num ⟨2, 1⟩)) .PLUS
                  (.binary (.literal (.num ⟨3, 1⟩)) .STAR (.literal (.num ⟨4, 1⟩))))),
             .print (.varRef "x")]
    ∧ runProgram emptyConfig 50 "var x = 2 + 3 * 4;\nprint x;"
      = .ok (["14.0"], some true) :=
  ⟨rfl, by decide⟩

/-- C8: `execute_block` restores the previous current-environment pointer
on every exit path — normal completion, a return unwind, a raised runtime
error, and divergence alike — because the restoration is the
unconditional `finally` of the Python source. -/
theorem execute_block_restores_current (cfg : Config) (fuel : Nat)
    (st : InterpState) (stmts : List Stmt) (envId : Nat) :
    ((execBlock cfg fuel st stmts envId).1).current = st.current := by
  cases fuel <;> rfl

/-- The import scenario of C9: the importing interpreter's current
environment is a block scope (id 1, enclosing the root) binding `g`;
the module file `m.capla` prints the free name `g`, which the module
itself never defines. -/
def importCfg : Config := ⟨"cwd", "root", [("cwd/m.capla", "print g")], fun _ => none⟩

def importerState (v : Value) : InterpState :=
  { heap := [⟨[("input", .builtin "input"), ("sleep", .builtin "sleep")], [], none⟩,
             ⟨[("g", v)], [], some 0⟩],
    current := 1, cache := [], output := [] }

/-- C9: a found module executes in `Environment(self.environment)` — a
fresh environment enclosed by the importing interpreter's current
environment — so the module's free name `g` resolves to the importer's
binding (any value `v`), the import completes normally, and the module's
namespace (empty here: the module defines nothing) is bound to `m`. -/
theorem import_module_sees_importer_binding (v : Value) :
    ((execute importCfg 20 (importerState v) (.importDecl ["m"])).1).output = [pyStr v]
    ∧ (execute importCfg 20 (importerState v) (.importDecl ["m"])).2 = .ok
    ∧ envGet ((execute importCfg 20 (importerState v) (.importDecl ["m"])).1).heap 1 "m"
        = .ok (.namespaceV []) :=
  ⟨rfl, rfl, rfl⟩

/-- C10: `Lexer.string` scans to the closing quote: for any contents
without a double quote, the characters between the quotes — newlines
included — become the literal unchanged, newlines only increment the line
counter, and without a closing quote the lexer fails with
`Unterminated string` at the final line. -/
theorem lexer_string_raw_newlines (contents rest : List Char) (line : Nat)
    (h : '"' ∉ contents) :
    lexStringBody (contents ++ '"' :: rest) line
      = .ok (contents, rest, line + contents.count '\n')
    ∧ lexStringBody contents line
      = .error ("Unterminated string at line " ++ toString (line + contents.count '\n')) := by
  induction contents generalizing line with
  | nil => simp [lexStringBody]
  | cons c cs ih =>
    have hc : ¬(c = '"') := fun hq => h (hq ▸ List.mem_cons_self c cs)
    have hcs : '"' ∉ cs := fun hm => h (List.mem_cons_of_mem c hm)
    have hcount : ∀ l : Nat,
        (if c = '\n' then l + 1 else l) + cs.count '\n' = l + (c :: cs).count '\n' := by
      intro l
      by_cases hn : c = '\n' <;>
        simp [List.count_cons, hn] <;> omega
    constructor
    · show lexStringBody (c :: (cs ++ '"' :: rest)) line = _
      rw [lexStringBody]
      simp only [hc, if_false]
      rw [(ih (if c = '\n' then line + 1 else line) hcs).1, hcount line]
    · rw [lexStringBody]
      simp only [hc, if_false]
      rw [(ih (if c = '\n' then line + 1 else line) hcs).2, hcount line]

/-- Witness for C10 at a concrete multi-line string. -/
theorem lexer_string_raw_newlines_witness :
    lexStringBody (['a', '\n', 'b'] ++ '"' :: ['c']) 1
      = .ok (['a', '\n', 'b'], ['c'], 1 + (['a', '\n', 'b'].count '\n')) :=
  (lexer_string_raw_newlines ['a', '\n', 'b'] ['c'] 1 (by decide)).1

/-- C5: for each supported type name, whenever `coerce_value` succeeds its
result is a fixed point: coercing the result again succeeds with the same
value.  `int` always lands on a Python int (re-coercion is `int(int)`),
`float` on a float, `string` on a string (`str` of a string is itself),
and `bool` on a boolean (booleans pass through). -/
theorem coerce_value_idempotent (v : Value) (t : String)
    (ht : t = "int" ∨ t = "float" ∨ t = "string" ∨ t = "bool")
    (w : Value) (h : coerceValue v t = .ok w) :
    coerceValue w t = .ok w := by
  rcases ht with rfl | rfl | rfl | rfl
  · have hv : coerceValue v "int"
        = (match pyInt v with
           | .ok n => .ok (.int n)
           | .error _ =>
             match pyFloat v with
             | .ok q => .ok (.int q.trunc)
             | .error e => .error (coercionMsg v "int" e)) := rfl
    rw [hv] at h
    cases hpi : pyInt v with
    | ok n => simp only [hpi] at h; cases h; rfl
    | error e1 =>
      simp only [hpi] at h
      cases hpf : pyFloat v with
      | ok q => simp only [hpf] at h; cases h; rfl
      | error e2 => simp only [hpf] at h; cases h
  · have hv : coerceValue v "float"
        = (match pyFloat v with
           | .ok q => .ok (.float q)
           | .error e => .error (coercionMsg v "float" e)) := rfl
    rw [hv] at h
    cases hpf : pyFloat v with
    | ok q => simp only [hpf] at h; cases h; rfl
    | error e => simp only [hpf] at h; cases h
  · have hv : coerceValue v "string" = .ok (.str (pyStr v)) := rfl
    rw [hv] at h
    cases h
    rfl
  · cases v with
    | bool b =>
      have hv : coerceValue (.bool b) "bool" = .ok (.bool b) := rfl
      rw [hv] at h; cases h; rfl
    | str s =>
      have hv : coerceValue (.str s) "bool"
          = (if pyToLower (pyStrip s) = "true" || pyToLower (pyStrip s) = "1" ||
                pyToLower (pyStrip s) = "yes" then .ok (.bool true)
             else if pyToLower (pyStrip s) = "false" || pyToLower (pyStrip s) = "0" ||
                pyToLower (pyStrip s) = "no" then .ok (.bool false)
             else .ok (.bool (pyTruthy (.str s)))) := rfl
      rw [hv] at h
      split at h
      · cases h; rfl
      · split at h
        · cases h; rfl
        · cases h; rfl
    | nil => cases h; rfl
    | int n => cases h; rfl
    | float q => cases h; rfl
    | closure n ps body env => cases h; rfl
    | builtin n => cases h; rfl
    | namespaceV entries => cases h; rfl

/-- Witness for C5: coercing the string `"7"` to `int` yields the Python
int `7`, and coercing that result again is a no-op. -/
theorem coerce_value_idempotent_witness :
    coerceValue (.str "7") "int" = .ok (.int 7)
    ∧ coerceValue (.int 7) "int" = .ok (.int 7) :=
  ⟨rfl, coerce_value_idempotent (.str "7") "int" (Or.inl rfl) (.int 7) rfl⟩

/-- Call-argument normalization: the arguments the parameter-binding loop
can observe — excess arguments truncated, missing trailing arguments
padded with `nil`. -/
def normalizeArgs (args : List Value) (n : Nat) : List Value :=
  args.take n ++ List.replicate (n - args.length) Value.nil

theorem getD_normalizeArgs (args : List Value) (n k : Nat) (hk : k < n) :
    (normalizeArgs args n).getD k .nil = args.getD k .nil := by
  unfold normalizeArgs
  by_cases ha : k < args.length
  · have htake : k < (args.take n).length := by
      simp [List.length_take]
      omega
    rw [List.getD_append _ _ _ _ htake]
    rw [List.getD_eq_getElem _ _ htake, List.getD_eq_getElem _ _ ha]
    simp [List.getElem_take]
  · have hlen : (args.take n).length = args.length := by
      simp [List.length_take]
      omega
    have hge : (args.take n).length ≤ k := by omega
    rw [List.getD_append_right _ _ _ _ hge]
    rw [List.getD_eq_default _ _ (by omega : args.length ≤ k)]
    have hrep : k - (args.take n).length < n - args.length := by omega
    rw [List.getD_eq_getElem _ _ (by simpa using hrep)]
    simp

theorem bindLoop_congr (params : List String) :
    ∀ (st : InterpState) (envId i : Nat) (args args' : List Value),
      (∀ k, k < params.length →
        args.getD (i + k) Value.nil = args'.getD (i + k) Value.nil) →
      bindLoop st envId params args i = bindLoop st envId params args' i := by
  induction params with
  | nil => intros; rfl
  | cons p ps ih =>
    intro st envId i args args' hk
    show bindLoop (defineVar st envId p (args.getD i .nil)) envId ps args (i + 1) = _
    have h0 : args.getD i .nil = args'.getD i .nil := by
      have := hk 0 (by simp)
      simpa using this
    rw [h0]
    exact ih _ envId (i + 1) args args' fun k hk2 => by
      have := hk (k + 1) (by simp only [List.length_cons]; omega)
      have harith : i + (k + 1) = i + 1 + k := by omega
      rwa [harith] at this

/-- C7: a closure call binds parameters positionally — the call behaves
identically on `args` and on `args` truncated to the arity and padded with
`nil` (so missing trailing arguments bind to `nil` and excess arguments are
silently ignored) — and the call's result is exactly the image of the
body's outcome under `callResult`: a `return` unwind reaching this call
boundary yields the returned value, normal fall-through yields `nil`, and
a runtime error propagates. -/
theorem closure_call_normalizes_and_unwinds (cfg : Config) (fuel : Nat)
    (st : InterpState) (f : FunctionCallable) (args : List Value) :
    callFn cfg fuel st f args = callFn cfg fuel st f (normalizeArgs args f.params.length)
    ∧ callFn cfg (fuel + 1) st f args
      = ((execBlock cfg fuel (callSetup st f args).2 f.body (callSetup st f args).1).1,
         callResult (execBlock cfg fuel (callSetup st f args).2 f.body (callSetup st f args).1).2) := by
  have hsetup : callSetup st f args = callSetup st f (normalizeArgs args f.params.length) := by
    unfold callSetup
    have hb := bindLoop_congr f.params
      (newEnv st (some f.closure)).2 (newEnv st (some f.closure)).1 0
      args (normalizeArgs args f.params.length)
      (fun k hk => by
        have := getD_normalizeArgs args f.params.length k hk
        simpa using this.symm)
    simp only [hb]
  constructor
  · cases fuel with
    | zero => rfl
    | succ n =>
      show ((execBlock cfg n (callSetup st f args).2 f.body (callSetup st f args).1).1,
            callResult (execBlock cfg n (callSetup st f args).2 f.body (callSetup st f args).1).2)
          = ((execBlock cfg n (callSetup st f (normalizeArgs args f.params.length)).2 f.body
                (callSetup st f (normalizeArgs args f.params.length)).1).1,
             callResult (execBlock cfg n (callSetup st f (normalizeArgs args f.params.length)).2 f.body
                (callSetup st f (normalizeArgs args f.params.length)).1).2)
      rw [hsetup]
  · rfl

/-! ### The environment scope-chain walk (C6) -/

theorem alGet_isSome_exists {α : Type} {l : List (String × α)} {k : String}
    (h : alContains l k = true) : ∃ w, alGet l k = some w :=
  Option.isSome_iff_exists.mp h

theorem alSet_keys {α : Type} :
    ∀ (l : List (String × α)) (k : String) (v : α),
      alContains l k = true → (alSet l k v).map Prod.fst = l.map Prod.fst := by
  intro l
  induction l with
  | nil => intro k v h; simp [alContains, alGet] at h
  | cons hd tl ih =>
    intro k v h
    obtain ⟨k', w⟩ := hd
    by_cases he : k' = k
    · simp [alSet, he]
    · have htl : alContains tl k = true := by
        simp only [alContains, alGet, he, if_false] at h
        exact h
      simp [alSet, he, ih k v htl]

/-- Fuel does not matter for the chain walk as long as it exceeds the
current environment id (enclosing ids strictly decrease along the walk). -/
theorem chainDefinesAux_fuel (heap : List EnvData) :
    ∀ f1 f2 i : Nat, ∀ name, i < f1 → i < f2 →
      chainDefinesAux heap f1 i name = chainDefinesAux heap f2 i name := by
  intro f1
  induction f1 with
  | zero => intro f2 i name h1 _; omega
  | succ a ih =>
    intro f2 i name _ h2
    cases f2 with
    | zero => omega
    | succ b =>
      simp only [chainDefinesAux]
      by_cases hc : alContains (getEnv heap i).values name
      · simp [hc]
      · simp only [hc, if_false]
        cases henc : (getEnv heap i).enclosing with
        | none => rfl
        | some j =>
          by_cases hj : j < i
          · simp only [hj, if_true]
            exact ih b j name (by omega) (by omega)
          · simp [hj]

theorem envGetAux_fuel (heap : List EnvData) :
    ∀ f1 f2 i : Nat, ∀ name, i < f1 → i < f2 →
      envGetAux heap f1 i name = envGetAux heap f2 i name := by
  intro f1
  induction f1 with
  | zero => intro f2 i name h1 _; omega
  | succ a ih =>
    intro f2 i name _ h2
    cases f2 with
    | zero => omega
    | succ b =>
      simp only [envGetAux]
      cases hg : alGet (getEnv heap i).values name with
      | some w => rfl
      | none =>
        cases henc : (getEnv heap i).enclosing with
        | none => rfl
        | some j =>
          by_cases hj : j < i
          · simp only [hj, if_true]
            exact ih b j name (by omega) (by omega)
          · simp [hj]

theorem envAssignAux_fuel (heap : List EnvData) :
    ∀ f1 f2 i : Nat, ∀ name, ∀ v : Value, i < f1 → i < f2 →
      envAssignAux heap f1 i name v = envAssignAux heap f2 i name v := by
  intro f1
  induction f1 with
  | zero => intro f2 i name v h1 _; omega
  | succ a ih =>
    intro f2 i name v _ h2
    cases f2 with
    | zero => omega
    | succ b =>
      simp only [envAssignAux]
      by_cases hc : alContains (getEnv heap i).values name
      · simp [hc]
      · simp only [hc, if_false]
        cases henc : (getEnv heap i).enclosing with
        | none => rfl
        | some j =>
          by_cases hj : j < i
          · simp only [hj, if_true]
            exact ih b j name v (by omega) (by omega)
          · simp [hj]

/-- One-step unfolding of `chainDefines` as the source recursion. -/
theorem chainDefines_unfold (heap : List EnvData) (i : Nat) (name : String) :
    chainDefines heap i name =
      (if alContains (getEnv heap i).values name then true
       else
        match (getEnv heap i).enclosing with
        | some j => if j < i then chainDefines heap j name else false
        | none => false) := by
  show chainDefinesAux heap (i + 1) i name = _
  simp only [chainDefinesAux]
  by_cases hc : alContains (getEnv heap i).values name
  · simp [hc]
  · simp only [hc, if_false]
    cases henc : (getEnv heap i).enclosing with
    | none => rfl
    | some j =>
      by_cases hj : j < i
      · simp only [hj, if_true]
        exact chainDefinesAux_fuel heap i (j + 1) j name (by omega) (by omega)
      · simp [hj]

/-- One-step unfolding of `envGet` as the source recursion. -/
theorem envGet_unfold (heap : List EnvData) (i : Nat) (name : String) :
    envGet heap i name =
      (match alGet (getEnv heap i).values name with
       | some w => .ok w
       | none =>
        match (getEnv heap i).enclosing with
        | some j => if j < i then envGet heap j name else .error (undefinedMsg name)
        | none => .error (undefinedMsg name)) := by
  show envGetAux heap (i + 1) i name = _
  simp only [envGetAux]
  cases hg : alGet (getEnv heap i).values name with
  | some w => rfl
  | none =>
    cases henc : (getEnv heap i).enclosing with
    | none => rfl
    | some j =>
      by_cases hj : j < i
      · simp only [hj, if_true]
        exact envGetAux_fuel heap i (j + 1) j name (by omega) (by omega)
      · simp [hj]

/-- One-step unfolding of `envAssign` as the source recursion. -/
theorem envAssign_unfold (heap : List EnvData) (i : Nat) (name : String) (v : Value) :
    envAssign heap i name v =
      (if alContains (getEnv heap i).values name then
        .ok (heap.set i { getEnv heap i with values := alSet (getEnv heap i).values name v })
       else
        match (getEnv heap i).enclosing with
        | some j => if j < i then envAssign heap j name v else .error (undefinedMsg name)
        | none => .error (undefinedMsg name)) := by
  show envAssignAux heap (i + 1) i name v = _
  simp only [envAssignAux]
  by_cases hc : alContains (getEnv heap i).values name
  · simp [hc]
  · simp only [hc, if_false]
    cases henc : (getEnv heap i).enclosing with
    | none => rfl
    | some j =>
      by_cases hj : j < i
      · simp only [hj, if_true]
        exact envAssignAux_fuel heap i (j + 1) j name v (by omega) (by omega)
      · simp [hj]

/-- The observable shape of an environment record: which names its value
map binds, its full declared-type map, and its enclosing link. -/
def envShape (d : EnvData) : List String × List (String × String) × Option Nat :=
  (d.values.map Prod.fst, d.types, d.enclosing)

theorem map_envShape_set (heap : List EnvData) (i : Nat) (d' : EnvData)
    (hd : envShape d' = envShape (getEnv heap i)) :
    (heap.set i d').map envShape = heap.map envShape := by
  apply List.ext_getElem
  · simp
  · intro k hk1 hk2
    simp only [List.length_map] at hk1 hk2
    simp only [List.getElem_map]
    by_cases hik : i = k
    · subst hik
      rw [List.getElem_set_self (by omega)]
      have : getEnv heap i = heap[i] := by
        simp [getEnv, List.getD_eq_getElem?_getD, List.getElem?_eq_getElem hk2]
      rw [← this, hd]
    · rw [List.getElem_set_ne hik]

/-- C6: `Environment.get` and `Environment.assign` walk outward through the
enclosing chain.  If no environment up to the root defines the name, both
fail with the `Undefined variable` error and assignment returns no updated
heap — no binding is created anywhere.  If some environment on the chain
defines it, `get` succeeds and `assign` succeeds while preserving the shape
of every environment (bound names, declared types and enclosing links are
all unchanged — only the one existing binding's payload is replaced). -/
theorem env_get_assign_walk (heap : List EnvData) (i : Nat) (name : String)
    (v : Value) :
    (chainDefines heap i name = false →
        envGet heap i name = .error (undefinedMsg name)
        ∧ envAssign heap i name v = .error (undefinedMsg name))
    ∧ (chainDefines heap i name = true →
        (∃ w, envGet heap i name = .ok w)
        ∧ ∃ heap1, envAssign heap i name v = .ok heap1
            ∧ heap1.map envShape = heap.map envShape) := by
  induction i using Nat.strong_induction_on with
  | _ i IH =>
    rw [chainDefines_unfold, envGet_unfold, envAssign_unfold]
    by_cases hc : alContains (getEnv heap i).values name
    · simp only [hc, if_true]
      constructor
      · intro hfalse; cases hfalse
      · intro _
        obtain ⟨w, hw⟩ := alGet_isSome_exists hc
        constructor
        · exact ⟨w, by simp [hw]⟩
        · refine ⟨heap.set i { getEnv heap i with values := alSet (getEnv heap i).values name v },
            rfl, ?_⟩
          apply map_envShape_set
          simp [envShape, alSet_keys _ _ _ hc]
    · simp only [hc, if_false]
      have hg : alGet (getEnv heap i).values name = none := by
        simp only [alContains] at hc
        exact Option.not_isSome_iff_eq_none.mp (by simpa using hc)
      simp only [hg]
      cases henc : (getEnv heap i).enclosing with
      | none =>
        refine ⟨fun _ => ⟨rfl, rfl⟩, fun htrue => ?_⟩
        cases htrue
      | some j =>
        by_cases hj : j < i
        · simp only [hj, if_true]
          exact IH j hj
        · simp only [hj, if_false]
          refine ⟨fun _ => ⟨by trivial, by trivial⟩, fun htrue => ?_⟩
          cases htrue

/-- Witness for C6: in a two-environment chain (a child whose enclosing is
an empty root), a name bound nowhere makes `get` and `assign` fail without
touching the heap. -/
theorem env_get_assign_walk_witness :
    envGet [⟨[], [], none⟩, ⟨[("a", .int 1)], [], some 0⟩] 1 "z"
        = .error (undefinedMsg "z")
    ∧ envAssign [⟨[], [], none⟩, ⟨[("a", .int 1)], [], some 0⟩] 1 "z" (.int 2)
        = .error (undefinedMsg "z") :=
  (env_get_assign_walk [⟨[], [], none⟩, ⟨[("a", .int 1)], [], some 0⟩] 1 "z" (.int 2)).1
    (by decide)

/-! ### Import cycles (C2) -/

/-- Two on-disk modules importing each other. -/
def cycleConfig : Config :=
  ⟨"cwd", "root",
   [("cwd/A.capla", "import B"), ("cwd/B.capla", "import A")],
   fun _ => none⟩

theorem alGet_mem {α : Type} :
    ∀ {l : List (String × α)} {k : String} {v : α},
      alGet l k = some v → (k, v) ∈ l := by
  intro l
  induction l with
  | nil => intro k v h; cases h
  | cons hd tl ih =>
    intro k v h
    obtain ⟨k', w⟩ := hd
    by_cases he : k' = k
    · subst he
      simp only [alGet, if_pos rfl] at h
      cases h
      exact List.mem_cons_self _ _
    · simp only [alGet, he, if_false] at h
      exact List.mem_cons_of_mem _ (ih h)

/-- An all-`None` cache never produces a cache hit (the check requires a
non-`None` entry). -/
theorem cacheHit_none_of_allNone {c : List (String × Option Value)}
    (h : ∀ p ∈ c, p.2 = none) (m : String) : cacheHit c m = none := by
  unfold cacheHit
  cases hg : alGet c m with
  | none => rfl
  | some o =>
    cases o with
    | none => rfl
    | some v =>
      have := h _ (alGet_mem hg)
      simp at this

/-- Marking a module as loading keeps the cache all-`None`. -/
theorem allNone_alSet_none :
    ∀ (c : List (String × Option Value)), (∀ p ∈ c, p.2 = none) →
      ∀ m : String, ∀ p ∈ alSet c m none, p.2 = none := by
  intro c
  induction c with
  | nil =>
    intro _ m p hp
    simp only [alSet, List.mem_singleton] at hp
    simp [hp]
  | cons hd tl ih =>
    intro h m p hp
    obtain ⟨k, w⟩ := hd
    by_cases he : k = m
    · simp only [alSet, he, if_pos rfl] at hp
      rcases List.mem_cons.mp hp with rfl | htl
      · rfl
      · exact h p (List.mem_cons_of_mem _ htl)
    · simp only [alSet, he, if_false] at hp
      rcases List.mem_cons.mp hp with rfl | htl
      · exact h _ (List.mem_cons_self _ _)
      · exact ih (fun q hq => h q (List.mem_cons_of_mem _ hq)) m _ htl

theorem finishModuleExec_div (modname last : String) (envId : Nat)
    (r : InterpState × SOut) (h : r.2 = .div) :
    (finishModuleExec modname last envId r).2 = .div := by
  rcases r with ⟨s, o⟩
  cases o with
  | ok => cases h
  | ret v => cases h
  | err m => cases h
  | div => rfl

/-- C2 core: with modules `A` and `B` cyclically importing each other on
disk, executing `import A` (or `import B`) exhausts any amount of fuel —
the recursion never terminates.  The cache stays all-`None` (only loading
markers are ever written), the cache check never fires on a `None` entry,
and the interpreter re-resolves and re-executes the same module file at
every level. -/
theorem execImport_cycle_div :
    ∀ fuel : Nat, ∀ st : InterpState, (∀ p ∈ st.cache, p.2 = none) →
      (execImport cycleConfig fuel st ["A"]).2 = .div
      ∧ (execImport cycleConfig fuel st ["B"]).2 = .div := by
  intro fuel
  induction fuel using Nat.strong_induction_on with
  | _ fuel IH =>
    intro st h
    cases fuel with
    | zero => exact ⟨rfl, rfl⟩
    | succ m =>
      have hblock : ∀ f : Nat, f < m + 1 → ∀ st' : InterpState,
          (∀ p ∈ st'.cache, p.2 = none) → ∀ eid : Nat, ∀ parts : List String,
          (parts = ["A"] ∨ parts = ["B"]) →
          (execBlock cycleConfig f st' [.importDecl parts] eid).2 = .div := by
        intro f hf st' h' eid parts hparts
        cases f with
        | zero => rfl
        | succ k =>
          show (execStmts cycleConfig k { st' with current := eid } [.importDecl parts]).2 = .div
          cases k with
          | zero => rfl
          | succ j =>
            have hex : (execute cycleConfig j { st' with current := eid }
                (.importDecl parts)).2 = .div := by
              cases j with
              | zero => rfl
              | succ i =>
                show (execImport cycleConfig i { st' with current := eid } parts).2 = .div
                have h2 : ∀ p ∈ ({ st' with current := eid } : InterpState).cache,
                    p.2 = none := h'
                rcases hparts with rfl | rfl
                · exact (IH i (by omega) { st' with current := eid } h2).1
                · exact (IH i (by omega) { st' with current := eid } h2).2
            rcases hpair : execute cycleConfig j { st' with current := eid }
              (.importDecl parts) with ⟨s1, o⟩
            rw [hpair] at hex
            simp only at hex
            subst hex
            show (match execute cycleConfig j { st' with current := eid }
                (.importDecl parts) with
              | (st1, .ok) => execStmts cycleConfig j st1 []
              | (st1, .ret v) => (st1, .ret v)
              | (st1, .err m) => (st1, .err m)
              | (st1, .div) => (st1, .div)).2 = .div
            rw [hpair]
      have hch : ∀ mm, cacheHit st.cache mm = none :=
        fun mm => cacheHit_none_of_allNone h mm
      have hrA : importResolve cycleConfig ["A"] = some "cwd/A.capla" := by decide
      have hrB : importResolve cycleConfig ["B"] = some "cwd/B.capla" := by decide
      have hlpA : lexParse ((alGet cycleConfig.fs "cwd/A.capla").getD "")
          = .ok [.importDecl ["B"]] := rfl
      have hlpB : lexParse ((alGet cycleConfig.fs "cwd/B.capla").getD "")
          = .ok [.importDecl ["A"]] := rfl
      constructor
      · show (execImport cycleConfig (m + 1) st ["A"]).2 = .div
        simp only [execImport, hch, hrA, hlpA]
        exact finishModuleExec_div _ _ _ _
          (hblock m (by omega) _ (allNone_alSet_none _ h _) _ ["B"] (Or.inr rfl))
      · show (execImport cycleConfig (m + 1) st ["B"]).2 = .div
        simp only [execImport, hch, hrB, hlpB]
        exact finishModuleExec_div _ _ _ _
          (hblock m (by omega) _ (allNone_alSet_none _ h _) _ ["A"] (Or.inl rfl))

/-- C2: executing `import A` with cyclic modules `A ↔ B` on disk never
terminates at any fuel (the Python original recurses until the host's
recursion limit): the loading marker is written but never checked, so the
claimed cycle-breaking failure value is never produced. -/
theorem import_cycle_recurses_forever (fuel : Nat) (st : InterpState)
    (h : ∀ p ∈ st.cache, p.2 = none) :
    (execute cycleConfig fuel st (.importDecl ["A"])).2 = .div
    ∧ (execute cycleConfig fuel st (.importDecl ["B"])).2 = .div := by
  cases fuel with
  | zero => exact ⟨rfl, rfl⟩
  | succ n => exact execImport_cycle_div n st h

/-- Witness for C2 from the interpreter's initial state (empty cache). -/
theorem import_cycle_recurses_forever_witness :
    (execute cycleConfig 40 initState (.importDecl ["A"])).2 = .div :=
  (import_cycle_recurses_forever 40 initState
    (fun p hp => absurd hp (List.not_mem_nil p))).1

/-! ### Compiler / interpreter round-trip (C4) -/

def vOutOfExcept : Except String Value → VOut
  | .ok v => .ok v
  | .error m => .err m

/-- Host execution of a pure arithmetic program succeeds on every print. -/
def hostOk : List Stmt → Bool
  | [] => true
  | .print e :: rest =>
    (match pyEvalExpr e with | .ok _ => true | .error _ => false) && hostOk rest
  | _ :: _ => false

/-- On float operands, the interpreter's operator semantics and the host's
semantics for the emitted text coincide (both are Python float arithmetic,
including the `ZeroDivisionError` message for `/`). -/
theorem arithOp_bridge (op : TokenType)
    (hop : op = .PLUS ∨ op = .MINUS ∨ op = .STAR ∨ op = .SLASH)
    (a b : PyFloat) :
    binOp op (.float a) (.float b) = vOutOfExcept (pyBinOp op (.float a) (.float b)) := by
  rcases hop with rfl | rfl | rfl | rfl
  · rfl
  · rfl
  · rfl
  · show (if b.isZero then VOut.err "float division by zero"
          else VOut.ok (Value.float (a.div b)))
        = vOutOfExcept (if b.isZero then Except.error "float division by zero"
          else Except.ok (Value.float (a.div b)))
    by_cases hb : b.isZero
    · simp [hb, vOutOfExcept]
    · simp [hb, vOutOfExcept]

/-- Every expression has positive size. -/
theorem exprSize_pos : ∀ e : Expr, 1 ≤ exprSize e := by
  intro e
  cases e <;> simp [exprSize] <;> omega

/-- Host evaluation of a pure arithmetic expression, when it succeeds,
yields a float.  (Stated with an explicit size bound to recurse on, since
`Expr` is a nested inductive.) -/
theorem numExpr_host_float :
    ∀ n : Nat, ∀ e : Expr, exprSize e ≤ n → NumExpr e = true →
      ∀ v, pyEvalExpr e = .ok v → ∃ q, v = .float q := by
  intro n
  induction n using Nat.strong_induction_on with
  | _ n IH =>
    intro e hsize h v hv
    cases e with
    | literal lv =>
      cases lv with
      | num q => exact ⟨q, by cases hv; rfl⟩
      | str s => cases h
      | bool b => cases h
      | nil => cases h
    | grouping g =>
      have hg : exprSize g < n := by
        have := exprSize_pos g
        simp [exprSize] at hsize
        omega
      exact IH (exprSize g) hg g le_rfl h v hv
    | unary op r =>
      rw [NumExpr] at h
      obtain ⟨hop, hr⟩ := Bool.and_eq_true_iff.mp h
      have hop2 : op = .MINUS := by
        cases op <;> first | rfl | cases hop
      subst hop2
      have hsz : exprSize r < n := by
        have := exprSize_pos r
        simp [exprSize] at hsize
        omega
      rw [pyEvalExpr] at hv
      cases hre : pyEvalExpr r with
      | error m => rw [hre] at hv; cases hv
      | ok w =>
        rw [hre] at hv
        obtain ⟨q, rfl⟩ := IH (exprSize r) hsz r le_rfl hr w hre
        simp only at hv
        cases hv
        exact ⟨q.neg, rfl⟩
    | binary l op r =>
      rw [NumExpr] at h
      obtain ⟨h1, hnr⟩ := Bool.and_eq_true_iff.mp h
      obtain ⟨hop, hnl⟩ := Bool.and_eq_true_iff.mp h1
      have hop2 : op = .PLUS ∨ op = .MINUS ∨ op = .STAR ∨ op = .SLASH := by
        cases op <;> simp_all
      have hszl : exprSize l < n := by
        have := exprSize_pos l
        have := exprSize_pos r
        simp [exprSize] at hsize
        omega
      have hszr : exprSize r < n := by
        have := exprSize_pos l
        have := exprSize_pos r
        simp [exprSize] at hsize
        omega
      rw [pyEvalExpr] at hv
      cases hle : pyEvalExpr l with
      | error m => rw [hle] at hv; cases hv
      | ok lv =>
        cases hre : pyEvalExpr r with
        | error m => rw [hle, hre] at hv; cases hv
        | ok rv =>
          rw [hle, hre] at hv
          obtain ⟨a, rfl⟩ := IH (exprSize l) hszl l le_rfl hnl lv hle
          obtain ⟨b, rfl⟩ := IH (exprSize r) hszr r le_rfl hnr rv hre
          simp only at hv
          rcases hop2 with rfl | rfl | rfl | rfl
          · cases hv; exact ⟨_, rfl⟩
          · cases hv; exact ⟨_, rfl⟩
          · cases hv; exact ⟨_, rfl⟩
          · by_cases hb : b.isZero
            · have hx : pyBinOp .SLASH (.float a) (.float b)
                  = .error "float division by zero" := by
                show (if b.isZero then Except.error "float division by zero"
                      else Except.ok (Value.float (a.div b))) = _
                simp [hb]
              rw [hx] at hv; cases hv
            · have hx : pyBinOp .SLASH (.float a) (.float b) = .ok (.float (a.div b)) := by
                show (if b.isZero then Except.error "float division by zero"
                      else Except.ok (Value.float (a.div b))) = _
                simp [hb]
              rw [hx] at hv; cases hv; exact ⟨_, rfl⟩
    | varRef nm => cases h
    | assign nm e2 => cases h
    | get o2 nm => cases h
    | call c args => cases h

/-- Core of C4 (amended): on pure arithmetic expressions, the interpreter
computes exactly what the host computes for the emitted text — same value,
same error — without touching the interpreter state. -/
theorem numExpr_eval (cfg : Config) :
    ∀ fuel : Nat, ∀ e : Expr, NumExpr e = true → ∀ st : InterpState,
      exprSize e ≤ fuel →
      evaluate cfg fuel st e = (st, vOutOfExcept (pyEvalExpr e)) := by
  intro fuel
  induction fuel using Nat.strong_induction_on with
  | _ fuel IH =>
    intro e h st hf
    cases fuel with
    | zero =>
      have := exprSize_pos e
      omega
    | succ f =>
      cases e with
      | literal lv =>
        cases lv with
        | num q => rfl
        | str s => cases h
        | bool b => cases h
        | nil => cases h
      | grouping g =>
        show evaluate cfg f st g = (st, vOutOfExcept (pyEvalExpr g))
        exact IH f (by omega) g h st (by simp [exprSize] at hf; omega)
      | unary op r =>
        rw [NumExpr] at h
        obtain ⟨hop, hr⟩ := Bool.and_eq_true_iff.mp h
        have hop2 : op = .MINUS := by
          cases op <;> first | rfl | cases hop
        subst hop2
        have hrec := IH f (by omega) r hr st (by simp [exprSize] at hf; omega)
        cases hre : pyEvalExpr r with
        | error m =>
          have hrec2 : evaluate cfg f st r = (st, .err m) := by
            rw [hrec, hre]; rfl
          show (match evaluate cfg f st r with
                | (st1, VOut.ok rv) =>
                  if TokenType.MINUS = TokenType.MINUS then
                    match pyFloat rv with
                    | .ok q => (st1, VOut.ok (.float q.neg))
                    | .error m => (st1, VOut.err m)
                  else if TokenType.MINUS = TokenType.BANG then
                    (st1, VOut.ok (.bool (!(isTruthy rv))))
                  else (st1, VOut.ok .nil)
                | (st1, VOut.err m) => (st1, VOut.err m)
                | (st1, VOut.div) => (st1, VOut.div))
              = (st, vOutOfExcept (pyEvalExpr (.unary .MINUS r)))
          rw [hrec2]
          simp [pyEvalExpr, hre, vOutOfExcept]
        | ok w =>
          obtain ⟨q, rfl⟩ := numExpr_host_float (exprSize r) r le_rfl hr w hre
          have hrec2 : evaluate cfg f st r = (st, .ok (.float q)) := by
            rw [hrec, hre]; rfl
          show (match evaluate cfg f st r with
                | (st1, VOut.ok rv) =>
                  if TokenType.MINUS = TokenType.MINUS then
                    match pyFloat rv with
                    | .ok q => (st1, VOut.ok (.float q.neg))
                    | .error m => (st1, VOut.err m)
                  else if TokenType.MINUS = TokenType.BANG then
                    (st1, VOut.ok (.bool (!(isTruthy rv))))
                  else (st1, VOut.ok .nil)
                | (st1, VOut.err m) => (st1, VOut.err m)
                | (st1, VOut.div) => (st1, VOut.div))
              = (st, vOutOfExcept (pyEvalExpr (.unary .MINUS r)))
          rw [hrec2]
          simp [pyEvalExpr, hre, vOutOfExcept, pyFloat]
      | binary l op r =>
        rw [NumExpr] at h
        obtain ⟨h1, hnr⟩ := Bool.and_eq_true_iff.mp h
        obtain ⟨hop, hnl⟩ := Bool.and_eq_true_iff.mp h1
        have hop2 : op = .PLUS ∨ op = .MINUS ∨ op = .STAR ∨ op = .SLASH := by
          cases op <;> simp_all
        have hle2 := IH f (by omega) l hnl st (by simp [exprSize] at hf; omega)
        have hbody : ∀ lv rv : Value,
            pyEvalExpr l = .ok lv → pyEvalExpr r = .ok rv →
            binOp op lv rv = vOutOfExcept (pyBinOp op lv rv) := by
          intro lv rv hlv hrv
          obtain ⟨a, rfl⟩ := numExpr_host_float (exprSize l) l le_rfl hnl lv hlv
          obtain ⟨b, rfl⟩ := numExpr_host_float (exprSize r) r le_rfl hnr rv hrv
          exact arithOp_bridge op hop2 a b
        show (match evaluate cfg f st l with
              | (st1, VOut.ok lv) =>
                match evaluate cfg f st1 r with
                | (st2, VOut.ok rv) => (st2, binOp op lv rv)
                | (st2, VOut.err m) => (st2, VOut.err m)
                | (st2, VOut.div) => (st2, VOut.div)
              | (st1, VOut.err m) => (st1, VOut.err m)
              | (st1, VOut.div) => (st1, VOut.div))
            = (st, vOutOfExcept (pyEvalExpr (.binary l op r)))
        cases hle : pyEvalExpr l with
        | error m =>
          have hl2 : evaluate cfg f st l = (st, .err m) := by rw [hle2, hle]; rfl
          rw [hl2]
          simp [pyEvalExpr, hle, vOutOfExcept]
        | ok lv =>
          have hl2 : evaluate cfg f st l = (st, .ok lv) := by rw [hle2, hle]; rfl
          rw [hl2]
          show (match evaluate cfg f st r with
                | (st2, VOut.ok rv) => (st2, binOp op lv rv)
                | (st2, VOut.err m) => (st2, VOut.err m)
                | (st2, VOut.div) => (st2, VOut.div))
              = (st, vOutOfExcept (pyEvalExpr (.binary l op r)))
          have hre2 := IH f (by omega) r hnr st (by simp [exprSize] at hf; omega)
          cases hre : pyEvalExpr r with
          | error m =>
            have hr2 : evaluate cfg f st r = (st, .err m) := by rw [hre2, hre]; rfl
            rw [hr2]
            simp [pyEvalExpr, hle, hre, vOutOfExcept]
          | ok rv =>
            have hr2 : evaluate cfg f st r = (st, .ok rv) := by rw [hre2, hre]; rfl
            rw [hr2]
            have := hbody lv rv hle hre
            simp [pyEvalExpr, hle, hre, this]
      | varRef nm => cases h
      | assign nm e2 => cases h
      | get o2 nm => cases h
      | call c args => cases h

/-- Statement-level agreement for print-only arithmetic programs. -/
theorem arith_execStmts (cfg : Config) :
    ∀ ss : List Stmt, ArithPrintProgram ss = true →
      ∀ fuel st, stmtsNeed ss ≤ fuel →
        (hostOk ss = true →
          execStmts cfg fuel st ss
            = ({ st with output := st.output ++ pyRunEmitted ss }, .ok))
        ∧ (hostOk ss = false → (execStmts cfg fuel st ss).2 ≠ .ok) := by
  intro ss
  induction ss with
  | nil =>
    intro _ fuel st hf
    cases fuel with
    | zero => simp [stmtsNeed] at hf
    | succ f =>
      constructor
      · intro _
        show (st, SOut.ok) = _
        simp [pyRunEmitted]
      · intro hfalse; cases hfalse
  | cons s rest ih =>
    intro hA fuel st hf
    have hs : ∃ e, s = .print e ∧ NumExpr e = true := by
      cases s with
      | print e =>
        refine ⟨e, rfl, ?_⟩
        have := (List.all_eq_true.mp hA) (.print e) (List.mem_cons_self _ _)
        simpa using this
      | expression e => simpa [ArithPrintProgram] using hA
      | varDecl n t i => simpa [ArithPrintProgram] using hA
      | importDecl p => simpa [ArithPrintProgram] using hA
      | block b => simpa [ArithPrintProgram] using hA
      | ifS c t e => simpa [ArithPrintProgram] using hA
      | whileS c b => simpa [ArithPrintProgram] using hA
      | funcDecl n p b => simpa [ArithPrintProgram] using hA
      | ret v => simpa [ArithPrintProgram] using hA
    obtain ⟨e, rfl, hne⟩ := hs
    have hArest : ArithPrintProgram rest = true := by
      have := List.all_eq_true.mp hA
      exact List.all_eq_true.mpr fun x hx => this x (List.mem_cons_of_mem _ hx)
    have hneed : stmtsNeed (.print e :: rest) = 1 + max (exprSize e + 1) (stmtsNeed rest) := rfl
    cases fuel with
    | zero => rw [hneed] at hf; omega
    | succ f =>
      have hff : exprSize e + 1 ≤ f ∧ stmtsNeed rest ≤ f := by
        rw [hneed] at hf; omega
      cases f with
      | zero => omega
      | succ g =>
        have hg : exprSize e ≤ g := by omega
        have heval := numExpr_eval cfg g e hne st hg
        cases he : pyEvalExpr e with
        | ok v =>
          have hexec2 : execute cfg (g + 1) st (.print e) = (emit st (pyStr v), SOut.ok) := by
            show (match evaluate cfg g st e with
                  | (st1, .ok v) => (emit st1 (pyStr v), SOut.ok)
                  | (st1, .err m) => (st1, SOut.err m)
                  | (st1, .div) => (st1, SOut.div))
                = _
            rw [heval, he]
            rfl
          have hrest := ih hArest (g + 1) (emit st (pyStr v)) (by omega)
          constructor
          · intro hok
            have hrest1 := hrest.1 (by simpa [hostOk, he] using hok)
            show (match execute cfg (g + 1) st (.print e) with
                  | (st1, .ok) => execStmts cfg (g + 1) st1 rest
                  | (st1, .ret v) => (st1, .ret v)
                  | (st1, .err m) => (st1, .err m)
                  | (st1, .div) => (st1, .div))
                = _
            rw [hexec2]
            simp only [hrest1]
            have hout : (emit st (pyStr v)).output ++ pyRunEmitted rest
                = st.output ++ pyRunEmitted (.print e :: rest) := by
              simp [emit, pyRunEmitted, he]
            simp [emit, pyRunEmitted, he]
          · intro hbad
            have hbad2 : hostOk rest = false := by
              simpa [hostOk, he] using hbad
            have hrest2 := hrest.2 hbad2
            show (match execute cfg (g + 1) st (.print e) with
                  | (st1, .ok) => execStmts cfg (g + 1) st1 rest
                  | (st1, .ret v) => (st1, .ret v)
                  | (st1, .err m) => (st1, .err m)
                  | (st1, .div) => (st1, .div)).2 ≠ .ok
            rw [hexec2]
            exact hrest2
        | error m =>
          have hexec2 : execute cfg (g + 1) st (.print e) = (st, SOut.err m) := by
            show (match evaluate cfg g st e with
                  | (st1, .ok v) => (emit st1 (pyStr v), SOut.ok)
                  | (st1, .err m) => (st1, SOut.err m)
                  | (st1, .div) => (st1, SOut.div))
                = _
            rw [heval, he]
            rfl
          constructor
          · intro hok
            simp [hostOk, he] at hok
          · intro _
            show (match execute cfg (g + 1) st (.print e) with
                  | (st1, .ok) => execStmts cfg (g + 1) st1 rest
                  | (st1, .ret v) => (st1, .ret v)
                  | (st1, .err m) => (st1, .err m)
                  | (st1, .div) => (st1, .div)).2 ≠ .ok
            rw [hexec2]
            simp

/-- A pure arithmetic expression always compiles, without touching the
`needs_time` flag. -/
theorem numExpr_compiles :
    ∀ fuel : Nat, ∀ e : Expr, NumExpr e = true → exprSize e ≤ fuel → ∀ nt : Bool,
      ∃ s, compileExpr fuel nt e = .ok (s, nt) := by
  intro fuel
  induction fuel using Nat.strong_induction_on with
  | _ fuel IH =>
    intro e h hsize nt
    cases fuel with
    | zero =>
      have := exprSize_pos e
      omega
    | succ f =>
      cases e with
      | literal lv =>
        cases lv with
        | num q => exact ⟨compileLiteral (.num q), rfl⟩
        | str s => cases h
        | bool b => cases h
        | nil => cases h
      | grouping g =>
        obtain ⟨s, hs⟩ := IH f (by omega) g h (by simp [exprSize] at hsize; omega) nt
        refine ⟨"(" ++ s ++ ")", ?_⟩
        show (match compileExpr f nt g with
              | .error er => Except.error er
              | .ok (s, nt1) => Except.ok ("(" ++ s ++ ")", nt1)) = _
        rw [hs]
      | unary op r =>
        rw [NumExpr] at h
        obtain ⟨hop, hr⟩ := Bool.and_eq_true_iff.mp h
        have hop2 : op = .MINUS := by
          cases op <;> first | rfl | cases hop
        subst hop2
        obtain ⟨s, hs⟩ := IH f (by omega) r hr (by simp [exprSize] at hsize; omega) nt
        refine ⟨"(-" ++ s ++ ")", ?_⟩
        show (match compileExpr f nt r with
              | .error e => Except.error e
              | .ok (rs, nt1) =>
                if TokenType.MINUS = TokenType.MINUS then Except.ok ("(-" ++ rs ++ ")", nt1)
                else if TokenType.MINUS = TokenType.BANG then
                  Except.ok ("(not " ++ rs ++ ")", nt1)
                else Except.error "Unknown unary operator") = _
        rw [hs]
        rfl
      | binary l op r =>
        rw [NumExpr] at h
        obtain ⟨h1, hnr⟩ := Bool.and_eq_true_iff.mp h
        obtain ⟨hop, hnl⟩ := Bool.and_eq_true_iff.mp h1
        have hop2 : op = .PLUS ∨ op = .MINUS ∨ op = .STAR ∨ op = .SLASH := by
          cases op <;> simp_all
        obtain ⟨ls, hls⟩ := IH f (by omega) l hnl (by simp [exprSize] at hsize; omega) nt
        obtain ⟨rs, hrs⟩ := IH f (by omega) r hnr (by simp [exprSize] at hsize; omega) nt
        have hbt : ∃ o, binOpText op = some o := by
          rcases hop2 with rfl | rfl | rfl | rfl
          · exact ⟨"+", rfl⟩
          · exact ⟨"-", rfl⟩
          · exact ⟨"*", rfl⟩
          · exact ⟨"/", rfl⟩
        obtain ⟨o, ho⟩ := hbt
        refine ⟨"(" ++ ls ++ " " ++ o ++ " " ++ rs ++ ")", ?_⟩
        show (match compileExpr f nt l with
              | .error e => Except.error e
              | .ok (ls, nt1) =>
                match compileExpr f nt1 r with
                | .error e => Except.error e
                | .ok (rs, nt2) =>
                  match binOpText op with
                  | some o => Except.ok ("(" ++ ls ++ " " ++ o ++ " " ++ rs ++ ")", nt2)
                  | none => Except.error "Unknown binary operator") = _
        rw [hls]
        show (match compileExpr f nt r with
              | .error e => Except.error e
              | .ok (rs2, nt2) =>
                match binOpText op with
                | some o2 => Except.ok ("(" ++ ls ++ " " ++ o2 ++ " " ++ rs2 ++ ")", nt2)
                | none => Except.error "Unknown binary operator") = _
        rw [hrs]
        show (match binOpText op with
              | some o2 => Except.ok ("(" ++ ls ++ " " ++ o2 ++ " " ++ rs ++ ")", nt)
              | none => Except.error "Unknown binary operator") = _
        rw [ho]
      | varRef nm => cases h
      | assign nm e2 => cases h
      | get o2 nm => cases h
      | call c args => cases h

/-- A print-only arithmetic program always compiles. -/
theorem arith_compiles :
    ∀ ss : List Stmt, ArithPrintProgram ss = true →
      ∀ fuel : Nat, stmtsNeed ss ≤ fuel →
      ∀ nt : Bool, ∃ lines, compileStmtList fuel nt ss = .ok (lines, nt) := by
  intro ss
  induction ss with
  | nil =>
    intro _ fuel hf nt
    cases fuel with
    | zero => simp [stmtsNeed] at hf
    | succ f => exact ⟨[], rfl⟩
  | cons s rest ih =>
    intro hA fuel hf nt
    have hs : ∃ e, s = .print e ∧ NumExpr e = true := by
      cases s with
      | print e =>
        refine ⟨e, rfl, ?_⟩
        have := (List.all_eq_true.mp hA) (.print e) (List.mem_cons_self _ _)
        simpa using this
      | expression e => simp [ArithPrintProgram] at hA
      | varDecl n t i => simp [ArithPrintProgram] at hA
      | importDecl p => simp [ArithPrintProgram] at hA
      | block b => simp [ArithPrintProgram] at hA
      | ifS c t e => simp [ArithPrintProgram] at hA
      | whileS c b => simp [ArithPrintProgram] at hA
      | funcDecl n p b => simp [ArithPrintProgram] at hA
      | ret v => simp [ArithPrintProgram] at hA
    obtain ⟨e, rfl, hne⟩ := hs
    have hArest : ArithPrintProgram rest = true := by
      have := List.all_eq_true.mp hA
      exact List.all_eq_true.mpr fun x hx => this x (List.mem_cons_of_mem _ hx)
    have hneed : stmtsNeed (.print e :: rest)
        = 1 + max (exprSize e + 1) (stmtsNeed rest) := rfl
    cases fuel with
    | zero => rw [hneed] at hf; omega
    | succ f =>
      have hff : exprSize e + 1 ≤ f ∧ stmtsNeed rest ≤ f := by
        rw [hneed] at hf; omega
      cases f with
      | zero => omega
      | succ g =>
        obtain ⟨s1, hs1⟩ := numExpr_compiles g e hne (by omega) nt
        obtain ⟨lines, hlines⟩ := ih hArest (g + 1) (by omega) nt
        refine ⟨["print(" ++ s1 ++ ")"] ++ lines, ?_⟩
        have hstmt : compileStmt (g + 1) nt (.print e)
            = .ok (["print(" ++ s1 ++ ")"], nt) := by
          show (match compileExpr g nt e with
                | .error er => Except.error er
                | .ok (s, nt1) => Except.ok (["print(" ++ s ++ ")"], nt1)) = _
          rw [hs1]
        show (match compileStmt (g + 1) nt (.print e) with
              | .error er => Except.error er
              | .ok (ls, nt1) =>
                match compileStmtList (g + 1) nt1 rest with
                | .error er => Except.error er
                | .ok (ls1, nt2) => Except.ok (ls ++ ls1, nt2)) = _
        rw [hstmt]
        show (match compileStmtList (g + 1) nt rest with
              | .error er => Except.error er
              | .ok (ls1, nt2) =>
                Except.ok (["print(" ++ s1 ++ ")"] ++ ls1, nt2)) = _
        rw [hlines]

/-- C4 counterexample: `print -true;` is a print statement over a unary
arithmetic operator applied to a literal, squarely inside the claimed
program class.  The interpreter coerces with `float()` and prints `-1.0`;
the compiler emits `print((-True))`, which the host evaluates with native
integer semantics (`-True` is the int `-1`) and prints `-1`.  The outputs
differ, refuting the claim as stated. -/
theorem compile_roundtrip_counterexample :
    (interpret emptyConfig 20 initState [.print (.unary .MINUS (.literal (.bool true)))]).1.output
      = ["-1.0"]
    ∧ (interpret emptyConfig 20 initState [.print (.unary .MINUS (.literal (.bool true)))]).2
      = some true
    ∧ compileProgram 20 [.print (.unary .MINUS (.literal (.bool true)))]
      = .ok "print((-True))"
    ∧ pyRunEmitted [.print (.unary .MINUS (.literal (.bool true)))] = ["-1"]
    ∧ (["-1.0"] : List String) ≠ ["-1"] :=
  ⟨rfl, rfl, rfl, rfl, by decide⟩

/-- C4 (amended): for programs made only of print statements over numeric
literals combined with `+ - * /`, unary minus and grouping, whose
interpretation completes without a runtime error, executing the
compiler-emitted text produces exactly the interpreter's output, and
compilation itself succeeds. -/
theorem compiled_output_matches_interpretation (ss : List Stmt) (fuel : Nat)
    (st1 : InterpState)
    (hA : ArithPrintProgram ss = true) (hf : stmtsNeed ss ≤ fuel)
    (hr : interpret emptyConfig fuel initState ss = (st1, some true)) :
    pyRunEmitted ss = st1.output ∧ (compileProgram fuel ss).isOk = true := by
  have hmain := arith_execStmts emptyConfig ss hA fuel initState hf
  constructor
  · rcases hex : execStmts emptyConfig fuel initState ss with ⟨s2, o⟩
    have hr2 : (match execStmts emptyConfig fuel initState ss with
        | (stx, SOut.ok) => (stx, some true)
        | (stx, SOut.err m) => (emit stx ("Runtime error: " ++ m), some false)
        | (stx, SOut.ret v) => (emit stx ("Runtime error: " ++ pyStr v), some false)
        | (stx, SOut.div) => (stx, none)) = (st1, some true) := hr
    rw [hex] at hr2
    cases o with
    | ok =>
      have hs2 : s2 = st1 := by cases hr2; rfl
      subst hs2
      by_cases hho : hostOk ss = true
      · have := hmain.1 hho
        rw [hex] at this
        have houts : s2.output = initState.output ++ pyRunEmitted ss := by
          cases this; rfl
        simpa [initState] using houts.symm
      · have := hmain.2 (by simpa using hho)
        rw [hex] at this
        simp at this
    | ret v => cases hr2
    | err m => cases hr2
    | div => cases hr2
  · obtain ⟨lines, hlines⟩ := arith_compiles ss hA fuel hf false
    show (match compileStmtList fuel false ss with
          | .error er => Except.error er
          | .ok (lines, nt) =>
            Except.ok (String.intercalate "\n"
              (if nt then "import time" :: lines else lines))).isOk
        = true
    rw [hlines]
    rfl

/-- Witness for C4 (amended) at the program `print 2 + 3 * 4;`. -/
theorem compiled_output_matches_interpretation_witness :
    pyRunEmitted [.print (.binary (.literal (.num ⟨2, 1⟩)) .PLUS
        (.binary (.literal (.num ⟨3, 1⟩)) .STAR (.literal (.num ⟨4, 1⟩))))]
      = ((interpret emptyConfig 20 initState
          [.print (.binary (.literal (.num ⟨2, 1⟩)) .PLUS
            (.binary (.literal (.num ⟨3, 1⟩)) .STAR (.literal (.num ⟨4, 1⟩))))]).1).output
    ∧ (compileProgram 20 [.print (.binary (.literal (.num ⟨2, 1⟩)) .PLUS
        (.binary (.literal (.num ⟨3, 1⟩)) .STAR (.literal (.num ⟨4, 1⟩))))]).isOk = true :=
  compiled_output_matches_interpretation
    [.print (.binary (.literal (.num ⟨2, 1⟩)) .PLUS
      (.binary (.literal (.num ⟨3, 1⟩)) .STAR (.literal (.num ⟨4, 1⟩))))]
    20 _ (by decide) (by decide) rfl

end CapLang
